import Mathlib

/-!
# Verification of the payments-ClouDO orchestrator/worker core

A shallow embedding, in Lean 4, of the decision-relevant code of the
pagopa/payments-ClouDO repository:

* the signing/token codec of `src/core/orchestrator/function_app.py`
  (`_b64url_encode`, `_b64url_decode`, `_sign_payload_b64`,
  `_verify_signed_payload`),
* the approval gate (`_only_pending_for_exec`, the `approve` and `reject`
  HTTP handlers),
* worker selection (`src/core/orchestrator/worker_routing.py`),
* the worker's duplicate-run suppression and status reporter
  (`src/core/worker/function_app.py`),
* the escalation routing engine (`src/core/orchestrator/smart_routing.py`).

Modelling conventions:

* Python strings are Lean `String`; a value obtained with `dict.get(k)` is an
  `Option String` (`none` = key absent or `None`).
* Python truthiness of an optional string (`x or y`) is modelled by `pyOrS`
  (both `None` and `""` are falsy).
* Byte strings are `List Nat` with every element `< 256`.
* Outbound I/O (queue sends, chat/paging calls) is modelled by boolean
  oracles; random choice (`random.choice`) by an explicit `pick` function;
  wall-clock instants by an `Int` (seconds); environment/table settings by a
  `String → Option String` store.
* Stdlib primitives that the repository calls but does not define
  (HMAC-SHA256, `json.dumps`/`json.loads`, `datetime.fromisoformat`) are
  parameters of the embedding; the properties they are assumed to have are
  hypotheses of the theorems and are discharged on concrete instances by the
  witnesses.
* Python exceptions are modelled with `Except`; a `try/except` of the source
  is an explicit `match` on the `Except` value at the same program point.
-/

/-! ## Python string helpers

Implemented by structural recursion over the character list (the library's
`String.trim`/`toLower`/`replace`/`splitOn` use well-founded or
iterator-based recursion, which the kernel cannot evaluate). -/

/-- `x or ""` / `dict.get(k) or ""` on an optional string: `None` maps to `""`. -/
def pyStr (x : Option String) : String := x.getD ""

/-- Python string truthiness for an optional string: `None` and `""` are falsy. -/
def pyTruthy (x : Option String) : Bool := !(pyStr x).data.isEmpty

/-- Python `a or b` where both sides are optional strings
(`None` and `""` are falsy). -/
def pyOrS (a b : Option String) : Option String := if pyTruthy a then a else b

/-- Python `s.strip()` (whitespace from both ends). -/
def pyTrim (s : String) : String :=
  ⟨((s.data.dropWhile Char.isWhitespace).reverse.dropWhile
      Char.isWhitespace).reverse⟩

/-- Python `s.lower()`. -/
def pyLower (s : String) : String := ⟨s.data.map Char.toLower⟩

/-- Python `s.upper()`. -/
def pyUpper (s : String) : String := ⟨s.data.map Char.toUpper⟩

/-- Python `s.startswith(p)`. -/
def pyStartsWith (s p : String) : Bool := p.data.isPrefixOf s.data

/-- Replace every (non-overlapping, leftmost-first) occurrence of `pat` by
`rep`; fuelled structural recursion (`pat` is never empty where used). -/
def pyReplaceL (fuel : Nat) (pat rep : List Char) (l : List Char) : List Char :=
  match fuel, l with
  | 0, l => l
  | _, [] => []
  | fuel + 1, c :: rest =>
      if !pat.isEmpty && pat.isPrefixOf (c :: rest) then
        rep ++ pyReplaceL fuel pat rep ((c :: rest).drop pat.length)
      else c :: pyReplaceL fuel pat rep rest

/-- Python `s.replace(pat, rep)`. -/
def pyReplace (s pat rep : String) : String :=
  ⟨pyReplaceL s.data.length pat.data rep.data s.data⟩

/-- Python `s.split("/")` (used with a one-character separator only). -/
def pySplitSlash (s : String) : List String :=
  (s.data.foldr
    (fun c acc =>
      if c = '/' then [] :: acc
      else
        match acc with
        | h :: t => (c :: h) :: t
        | [] => [[c]])
    [[]]).map fun l => (⟨l⟩ : String)

/-- Python `s.strip().lower()`. -/
def trimLower (s : String) : String := pyLower (pyTrim s)

/-- Drop every leading and trailing occurrence of `c` from a character list:
Python `s.strip(c)`. -/
def stripCharL (c : Char) (l : List Char) : List Char :=
  ((l.dropWhile (· = c)).reverse.dropWhile (· = c)).reverse

/-- Python `s.strip(c)` on a `String`. -/
def stripChar (c : Char) (s : String) : String := ⟨stripCharL c s.data⟩

/-! ## Base64 (Python `base64` module, as used by the repository)

`_b64url_encode` is `base64.urlsafe_b64encode(data).decode().rstrip("=")`.
`_b64url_decode` re-pads and calls `base64.urlsafe_b64decode`, which discards
characters outside the alphabet and fails when the (padded) length is not a
multiple of four.  `encode_logs` / `_encode_logs` use the standard alphabet
with padding kept. -/

/-- One sextet to a character of the base64url alphabet (`-`/`_` variant). -/
def b64uChar (v : Nat) : Char :=
  let v := v % 64
  if v < 26 then Char.ofNat (65 + v)
  else if v < 52 then Char.ofNat (97 + (v - 26))
  else if v < 62 then Char.ofNat (48 + (v - 52))
  else if v = 62 then '-'
  else '_'

/-- One sextet to a character of the standard base64 alphabet (`+`/`/`). -/
def b64sChar (v : Nat) : Char :=
  let v := v % 64
  if v < 26 then Char.ofNat (65 + v)
  else if v < 52 then Char.ofNat (97 + (v - 26))
  else if v < 62 then Char.ofNat (48 + (v - 52))
  else if v = 62 then '+'
  else '/'

/-- Inverse of `b64uChar` on the base64url alphabet. -/
def b64uDec (c : Char) : Option Nat :=
  let n := c.toNat
  if 65 ≤ n ∧ n ≤ 90 then some (n - 65)
  else if 97 ≤ n ∧ n ≤ 122 then some (n - 97 + 26)
  else if 48 ≤ n ∧ n ≤ 57 then some (n - 48 + 52)
  else if c = '-' then some 62
  else if c = '_' then some 63
  else none

/-- The base64 body of a byte list: 4 characters per 3-byte group, the final
partial group encoded without padding characters. -/
def b64Body (alpha : Nat → Char) : List Nat → List Char
  | [] => []
  | [a] => [alpha (a / 4), alpha (a % 4 * 16)]
  | [a, b] => [alpha (a / 4), alpha (a % 4 * 16 + b / 16), alpha (b % 16 * 4)]
  | a :: b :: c :: rest =>
      alpha (a / 4) :: alpha (a % 4 * 16 + b / 16) ::
      alpha (b % 16 * 4 + c / 64) :: alpha (c % 64) :: b64Body alpha rest

/-- Number of `'='` padding characters base64 appends for an `n`-byte input. -/
def b64PadLen (n : Nat) : Nat := (3 - n % 3) % 3

/-- `base64.urlsafe_b64encode` (padding kept), as a character list. -/
def b64uRaw (bs : List Nat) : List Char :=
  b64Body b64uChar bs ++ List.replicate (b64PadLen bs.length) '='

/-- `base64.b64encode` (standard alphabet, padding kept), as a character list. -/
def b64sRaw (bs : List Nat) : List Char :=
  b64Body b64sChar bs ++ List.replicate (b64PadLen bs.length) '='

/-- `str.rstrip(c)` on a character list. -/
def rstripChar (c : Char) (l : List Char) : List Char :=
  (l.reverse.dropWhile (· = c)).reverse

/-- `_b64url_encode` (function_app.py:51): URL-safe base64 without padding. -/
def b64urlEncode (bs : List Nat) : String := ⟨rstripChar '=' (b64uRaw bs)⟩

/-- A character `base64.b64decode` keeps: base64url alphabet or padding. -/
def b64Keep (c : Char) : Bool := (b64uDec c).isSome || c = '='

/-- Decode a padded base64url character stream, four characters at a time.
`none` models `binascii.Error` (bad length, stray padding, `'='` in the two
leading slots of a group). -/
def b64DecGroups : List Char → Option (List Nat)
  | [] => some []
  | c1 :: c2 :: c3 :: c4 :: rest =>
      match b64uDec c1, b64uDec c2 with
      | some v1, some v2 =>
          if c3 = '=' ∧ c4 = '=' ∧ rest = [] then
            some [v1 * 4 + v2 / 16]
          else if c4 = '=' ∧ rest = [] then
            match b64uDec c3 with
            | some v3 => some [v1 * 4 + v2 / 16, v2 % 16 * 16 + v3 / 4]
            | none => none
          else
            match b64uDec c3, b64uDec c4 with
            | some v3, some v4 =>
                (b64DecGroups rest).map
                  (fun tl => (v1 * 4 + v2 / 16) :: (v2 % 16 * 16 + v3 / 4) ::
                             (v3 % 4 * 64 + v4) :: tl)
            | _, _ => none
      | _, _ => none
  | _ => none

/-- `_b64url_decode` (function_app.py:56): re-pad from the unpadded length
(`"=" * (-len(s) % 4)`), drop foreign characters, decode; `none` models the
`binascii.Error` raised on a malformed stream. -/
def b64urlDecode (s : String) : Option (List Nat) :=
  let padded := s.data ++ List.replicate ((4 - s.length % 4) % 4) '='
  let kept := padded.filter b64Keep
  if kept.length % 4 = 0 then b64DecGroups kept else none

/-! ### Base64 lemmas -/

theorem b64uDec_b64uChar_lt : ∀ w < 64, b64uDec (b64uChar w) = some w := by decide

theorem b64uChar_mod (v : Nat) : b64uChar v = b64uChar (v % 64) := by
  simp only [b64uChar, Nat.mod_mod_of_dvd v dvd_rfl]

theorem b64uDec_b64uChar (v : Nat) : b64uDec (b64uChar v) = some (v % 64) := by
  rw [b64uChar_mod]
  exact b64uDec_b64uChar_lt (v % 64) (Nat.mod_lt _ (by omega))

theorem b64uChar_ne_pad_lt : ∀ w < 64, b64uChar w ≠ '=' := by decide

theorem b64uChar_ne_pad (v : Nat) : b64uChar v ≠ '=' := by
  rw [b64uChar_mod]
  exact b64uChar_ne_pad_lt (v % 64) (Nat.mod_lt _ (by omega))

theorem b64Keep_b64uChar (v : Nat) : b64Keep (b64uChar v) = true := by
  simp [b64Keep, b64uDec_b64uChar]

theorem b64Keep_pad : b64Keep '=' = true := by decide

theorem b64Body_length (alpha : Nat → Char) : ∀ bs : List Nat,
    (b64Body alpha bs).length =
      4 * (bs.length / 3) + (if bs.length % 3 = 0 then 0 else bs.length % 3 + 1)
  | [] => by simp [b64Body]
  | [a] => by simp [b64Body]
  | [a, b] => by simp [b64Body]
  | a :: b :: c :: rest => by
      have ih := b64Body_length alpha rest
      have h1 : (rest.length + 1 + 1 + 1) % 3 = rest.length % 3 := by omega
      have h2 : (rest.length + 1 + 1 + 1) / 3 = rest.length / 3 + 1 := by omega
      simp only [b64Body, List.length_cons, h1, h2]
      by_cases h : rest.length % 3 = 0 <;> simp only [h, if_true, if_false] at ih ⊢ <;>
        omega

theorem b64Body_no_pad : ∀ bs : List Nat, ∀ c ∈ b64Body b64uChar bs, c ≠ '='
  | [] => by simp [b64Body]
  | [a] => by
      simp [b64Body]
      exact ⟨b64uChar_ne_pad _, b64uChar_ne_pad _⟩
  | [a, b] => by
      simp [b64Body]
      exact ⟨b64uChar_ne_pad _, b64uChar_ne_pad _, b64uChar_ne_pad _⟩
  | a :: b :: c :: rest => by
      have ih := b64Body_no_pad rest
      simp only [b64Body, List.mem_cons]
      rintro x (rfl | rfl | rfl | rfl | hx)
      · exact b64uChar_ne_pad _
      · exact b64uChar_ne_pad _
      · exact b64uChar_ne_pad _
      · exact b64uChar_ne_pad _
      · exact ih x hx

theorem b64DecGroups_b64uRaw : ∀ bs : List Nat, (∀ x ∈ bs, x < 256) →
    b64DecGroups (b64uRaw bs) = some bs
  | [], _ => by simp [b64uRaw, b64Body, b64PadLen, b64DecGroups]
  | [a], h => by
      have ha : a < 256 := h a (by simp)
      have e1 := b64uDec_b64uChar (a / 4)
      have e2 := b64uDec_b64uChar (a % 4 * 16)
      have m1 : a / 4 % 64 = a / 4 := by omega
      have m2 : a % 4 * 16 % 64 = a % 4 * 16 := by omega
      simp only [b64uRaw, b64Body, b64PadLen, List.length_cons, List.length_nil]
      simp only [show (3 - 1 % 3) % 3 = 2 by norm_num, List.replicate,
        List.cons_append, List.nil_append, b64DecGroups, e1, e2, m1, m2]
      simp only [and_self, if_true, Option.some.injEq, List.cons.injEq, and_true]
      omega
  | [a, b], h => by
      have ha : a < 256 := h a (by simp)
      have hb : b < 256 := h b (by simp)
      have e1 := b64uDec_b64uChar (a / 4)
      have e2 := b64uDec_b64uChar (a % 4 * 16 + b / 16)
      have e3 := b64uDec_b64uChar (b % 16 * 4)
      have m1 : a / 4 % 64 = a / 4 := by omega
      have m2 : (a % 4 * 16 + b / 16) % 64 = a % 4 * 16 + b / 16 := by omega
      have m3 : b % 16 * 4 % 64 = b % 16 * 4 := by omega
      have np := b64uChar_ne_pad (b % 16 * 4)
      simp only [b64uRaw, b64Body, b64PadLen, List.length_cons, List.length_nil]
      simp only [show (3 - 2 % 3) % 3 = 1 by norm_num, List.replicate,
        List.cons_append, List.nil_append, b64DecGroups, e1, e2, e3, m1, m2, m3]
      simp only [np, false_and, if_false, and_self, if_true, Option.some.injEq,
        List.cons.injEq, and_true]
      exact ⟨by omega, by omega⟩
  | a :: b :: c :: rest, h => by
      have ha : a < 256 := h a (by simp)
      have hb : b < 256 := h b (by simp)
      have hc : c < 256 := h c (by simp)
      have ih := b64DecGroups_b64uRaw rest (fun x hx => h x (by simp [hx]))
      have e1 := b64uDec_b64uChar (a / 4)
      have e2 := b64uDec_b64uChar (a % 4 * 16 + b / 16)
      have e3 := b64uDec_b64uChar (b % 16 * 4 + c / 64)
      have e4 := b64uDec_b64uChar (c % 64)
      have m1 : a / 4 % 64 = a / 4 := by omega
      have m2 : (a % 4 * 16 + b / 16) % 64 = a % 4 * 16 + b / 16 := by omega
      have m3 : (b % 16 * 4 + c / 64) % 64 = b % 16 * 4 + c / 64 := by omega
      have m4 : c % 64 % 64 = c % 64 := by omega
      have np3 := b64uChar_ne_pad (b % 16 * 4 + c / 64)
      have np4 := b64uChar_ne_pad (c % 64)
      have hpad : b64PadLen (a :: b :: c :: rest).length = b64PadLen rest.length := by
        simp only [b64PadLen, List.length_cons]
        omega
      simp only [b64uRaw, hpad] at ih ⊢
      simp only [b64Body, List.cons_append, b64DecGroups, e1, e2, e3, e4, m1, m2, m3,
        m4, ih]
      simp only [np3, np4, false_and, and_false, if_false]
      simp only [List.append_eq, ih, Option.map_some', Option.some.injEq,
        List.cons.injEq, and_true]
      constructor <;> omega

theorem b64Body_keep : ∀ bs : List Nat, ∀ c ∈ b64Body b64uChar bs, b64Keep c = true
  | [] => by simp [b64Body]
  | [a] => by
      simp [b64Body]
      exact ⟨b64Keep_b64uChar _, b64Keep_b64uChar _⟩
  | [a, b] => by
      simp [b64Body]
      exact ⟨b64Keep_b64uChar _, b64Keep_b64uChar _, b64Keep_b64uChar _⟩
  | a :: b :: c :: rest => by
      have ih := b64Body_keep rest
      simp only [b64Body, List.mem_cons]
      rintro x (rfl | rfl | rfl | rfl | hx)
      · exact b64Keep_b64uChar _
      · exact b64Keep_b64uChar _
      · exact b64Keep_b64uChar _
      · exact b64Keep_b64uChar _
      · exact ih x hx

theorem dropWhile_eq_of_not (c : Char) (l : List Char) (h : ∀ x ∈ l, x ≠ c) :
    l.dropWhile (· = c) = l := by
  cases l with
  | nil => rfl
  | cons a as =>
      rw [List.dropWhile_cons]
      simp [h a (List.mem_cons_self a as)]

theorem dropWhile_replicate_append (c : Char) (k : Nat) (t : List Char) :
    (List.replicate k c ++ t).dropWhile (· = c) = t.dropWhile (· = c) := by
  induction k with
  | zero => simp
  | succ n ih => simp [List.replicate_succ, List.dropWhile_cons, ih]

theorem rstripChar_append_replicate (c : Char) (l : List Char) (k : Nat) :
    rstripChar c (l ++ List.replicate k c) = rstripChar c l := by
  simp [rstripChar, List.reverse_append, dropWhile_replicate_append]

theorem rstripChar_eq_of_not (c : Char) (l : List Char) (h : ∀ x ∈ l, x ≠ c) :
    rstripChar c l = l := by
  simp only [rstripChar]
  rw [dropWhile_eq_of_not c l.reverse (fun x hx => h x (List.mem_reverse.mp hx))]
  exact l.reverse_reverse

theorem b64urlEncode_data (bs : List Nat) :
    (b64urlEncode bs).data = b64Body b64uChar bs := by
  show rstripChar '=' (b64uRaw bs) = b64Body b64uChar bs
  rw [b64uRaw, rstripChar_append_replicate,
    rstripChar_eq_of_not '=' _ (b64Body_no_pad bs)]

theorem b64urlEncode_length (bs : List Nat) :
    (b64urlEncode bs).length = (b64Body b64uChar bs).length := by
  show (b64urlEncode bs).data.length = _
  rw [b64urlEncode_data]

/-- Round trip of the repository's base64url codec: `_b64url_decode`
recovers the bytes that `_b64url_encode` was given. -/
theorem b64urlDecode_b64urlEncode (bs : List Nat) (h : ∀ x ∈ bs, x < 256) :
    b64urlDecode (b64urlEncode bs) = some bs := by
  have hlenB := b64Body_length b64uChar bs
  have hpadeq : (4 - (b64Body b64uChar bs).length % 4) % 4 = b64PadLen bs.length := by
    simp only [b64PadLen]
    have h3 : bs.length % 3 = 0 ∨ bs.length % 3 = 1 ∨ bs.length % 3 = 2 := by omega
    rcases h3 with h3 | h3 | h3 <;> rw [h3] at hlenB ⊢ <;> norm_num at hlenB <;> omega
  have hraw : b64Body b64uChar bs ++ List.replicate (b64PadLen bs.length) '=' =
      b64uRaw bs := rfl
  have hfilter : (b64uRaw bs).filter b64Keep = b64uRaw bs := by
    rw [List.filter_eq_self]
    intro a ha
    rcases List.mem_append.mp ha with hb | hp
    · exact b64Body_keep bs a hb
    · rw [List.eq_of_mem_replicate hp]; exact b64Keep_pad
  have hlen4 : (b64uRaw bs).length % 4 = 0 := by
    simp only [b64uRaw, List.length_append, List.length_replicate, b64PadLen]
    by_cases h3 : bs.length % 3 = 0 <;> simp only [h3, if_true, if_false] at hlenB <;>
      omega
  simp only [b64urlDecode, b64urlEncode_data, b64urlEncode_length, hpadeq, hraw,
    hfilter, hlen4, if_true]
  exact b64DecGroups_b64uRaw bs h

theorem b64urlEncode_ne_empty (bs : List Nat) (h : bs ≠ []) :
    b64urlEncode bs ≠ "" := by
  intro he
  have : (b64urlEncode bs).data = [] := by rw [he]
  rw [b64urlEncode_data] at this
  cases bs with
  | nil => exact h rfl
  | cons a tl =>
      cases tl with
      | nil => simp [b64Body] at this
      | cons b tl2 =>
          cases tl2 <;> simp [b64Body] at this

/-- Length of Python `base64.b64encode` output: `4 * ceil(n / 3)` characters. -/
theorem b64sRaw_length (bs : List Nat) :
    (b64sRaw bs).length = 4 * ((bs.length + 2) / 3) := by
  have hlenB := b64Body_length b64sChar bs
  simp only [b64sRaw, List.length_append, List.length_replicate, b64PadLen]
  by_cases h3 : bs.length % 3 = 0 <;> simp only [h3, if_true, if_false] at hlenB <;>
    omega

/-! ## Signing / token codec (function_app.py:51-100)

HMAC-SHA256 is a stdlib primitive: it is a parameter
`mac : String → String → String` (key, message ↦ hex digest) of the embedding.
`json.loads` applied to the decoded payload bytes is a parameter
`loads : List Nat → Option ApprovalPayload`, and `datetime.fromisoformat`
composed with the UTC conversion is a parameter
`parseIso : String → Option Int` (`none` = `ValueError`); `now : Int` is the
current UTC instant in seconds. -/

/-- The fields of the signed approval payload dict that the orchestrator
builds (function_app.py:713-724) and that the approval handlers read.
`resourceInfo`/`routingInfo` are carried as opaque JSON fragments. -/
structure ApprovalPayload where
  execId : Option String := none
  schemaId : Option String := none
  exp : Option String := none
  resourceInfo : Option String := none
  routingInfo : Option String := none
  code : Option String := none
  monitorCondition : Option String := none
  severity : Option String := none
  worker : Option String := none
deriving DecidableEq

/-- `(APPROVAL_SECRET or "default")` — the HMAC key actually used. -/
def effectiveKey (secret : String) : String := if secret = "" then "default" else secret

/-- `_sign_payload_b64` (function_app.py:62): HMAC-SHA256 hex digest over the
base64url payload, keyed by `APPROVAL_SECRET` (or `"default"`). -/
def signPayloadB64 (secret : String) (mac : String → String → String)
    (payloadB64 : String) : String :=
  mac (effectiveKey secret) payloadB64

/-- The expiry string exactly as `_verify_signed_payload` prepares it:
`str(payload.get("exp") or "").replace(" ", "").replace("Z", "+00:00")`. -/
def cleanExpStr (pl : ApprovalPayload) : String :=
  pyReplace (pyReplace (pyStr pl.exp) " " "") "Z" "+00:00"

/-- `_verify_signed_payload` (function_app.py:71-100).  Checks, in source
order: presence of both parameters, constant-time digest equality, base64url
decoding, JSON parsing, `execId` route match, and expiry.  Every caught
exception path yields `(false, {})`. -/
def verifySignedPayload (secret : String) (mac : String → String → String)
    (loads : List Nat → Option ApprovalPayload) (parseIso : String → Option Int)
    (now : Int) (execIdPath p s : String) : Bool × ApprovalPayload :=
  if p = "" ∨ s = "" then (false, {})
  else
    let expected := signPayloadB64 secret mac p
    if expected ≠ s then (false, {})
    else
      match b64urlDecode p with
      | none => (false, {})
      | some raw =>
          match loads raw with
          | none => (false, {})
          | some payload =>
              if pyTrim (pyStr payload.execId) ≠ pyTrim execIdPath then (false, {})
              else
                match parseIso (cleanExpStr payload) with
                | none => (false, {})
                | some expDt =>
                    if now > expDt then (false, {})
                    else (true, payload)

/-! ## Approval gate (function_app.py:213-224, 1151-1505, 1505-1700) -/

/-- An execution-log row, restricted to the two columns
`_only_pending_for_exec` reads. -/
structure LogRow where
  execId : Option String := none
  status : Option String := none
deriving DecidableEq

/-- `_only_pending_for_exec` (function_app.py:213-224): `true` iff every row
whose `ExecId` matches has (normalised) status `"pending"`. -/
def onlyPendingForExec : List LogRow → String → Bool
  | [], _ => true
  | e :: rest, execId =>
      if pyStr e.execId ≠ execId then onlyPendingForExec rest execId
      else if trimLower (pyStr e.status) ≠ "pending" then false
      else onlyPendingForExec rest execId

theorem onlyPendingForExec_eq_false_iff (rows : List LogRow) (execId : String) :
    onlyPendingForExec rows execId = false ↔
      ∃ e ∈ rows, pyStr e.execId = execId ∧ trimLower (pyStr e.status) ≠ "pending" := by
  induction rows with
  | nil => simp [onlyPendingForExec]
  | cons e rest ih =>
      by_cases h1 : pyStr e.execId = execId
      · by_cases h2 : trimLower (pyStr e.status) = "pending"
        · simp [onlyPendingForExec, h1, h2, ih]
        · simp only [onlyPendingForExec, h1, h2]
          simp [h1, h2]
      · simp [onlyPendingForExec, h1, ih]

/-- A row of the schema table, restricted to the keys the handlers read.
`idU`/`idL` are the two distinct dictionary keys `"Id"` and `"id"`. -/
structure SchemaEntity where
  idU : Option String := none
  idL : Option String := none
  name : Option String := none
  description : Option String := none
  url : Option String := none
  runbook : Option String := none
  runArgs : Option String := none
  worker : Option String := none
  oncall : Option String := none
deriving DecidableEq

/-- The handlers' local `get_id`:
`str(e.get("Id") or e.get("id") or "").strip()`. -/
def getId (e : SchemaEntity) : String := pyTrim (pyStr (pyOrS e.idU e.idL))

/-- The `Schema` dataclass after `__post_init__` (models.py). -/
structure SchemaModel where
  id : String
  name : String
  description : Option String
  url : Option String
  runbook : Option String
  runArgs : String
  worker : String
  oncall : String
deriving DecidableEq

/-- `Schema(id=schema_entity.get("id"), entity=schema_entity)` (models.py):
`none` models the `ValueError` raised when the `"id"` key is absent or falsy
(note: only the lowercase key is consulted here, unlike `get_id`). -/
def schemaOfEntity (e : SchemaEntity) : Option SchemaModel :=
  if pyStr e.idL = "" then none
  else some {
    id := pyStr e.idL
    name := pyTrim (pyStr e.name)
    description := let d := pyTrim (pyStr e.description); if d = "" then none else some d
    url := let u := pyTrim (pyStr e.url); if u = "" then none else some u
    runbook := let r := pyTrim (pyStr e.runbook); if r = "" then none else some r
    runArgs := pyTrim (pyStr e.runArgs)
    worker := pyTrim (pyStr e.worker)
    oncall := let o := trimLower (e.oncall.getD "false"); if o = "" then "false" else o
  }

/-! ## Worker registry and selection (worker_routing.py) -/

/-- The parse of a registry row's `LastSeen` value: absent/falsy, unparseable
(`datetime.fromisoformat` raised), or a UTC instant in seconds. -/
inductive LastSeenVal
  | missing
  | invalid
  | seen (t : Int)
deriving DecidableEq

/-- A `WorkersRegistry` row, restricted to the keys `worker_routing` reads. -/
structure WorkerRow where
  partitionKey : Option String := none
  lastSeen : LastSeenVal := .missing
  queue : Option String := none
deriving DecidableEq

/-- `get_active_workers` (worker_routing.py:7-67): keep rows whose `LastSeen`
parsed to an instant with `now - lastSeen <= timeout`; rows with a missing or
unparseable `LastSeen` are skipped (`continue`).  The `Z`-suffix fixing and
timezone normalisation are collapsed into `LastSeenVal.seen`. -/
def getActiveWorkers (now : Int) (timeoutMinutes : Int) (ws : List WorkerRow) :
    List WorkerRow :=
  ws.filter (fun w =>
    match w.lastSeen with
    | .seen t => decide (now - t ≤ timeoutMinutes * 60)
    | _ => false)

/-- `worker_routing` (worker_routing.py:70-94).  The JSON parse of the table
binding is I/O and sits outside the model (`workers` is already the row list);
`random.choice` is the `pick` oracle.  Filter by capability
(`w.get("PartitionKey") == schema.worker`), keep the 3-minute-fresh rows, and
return the chosen row's `Queue` value. -/
def workerRouting (pick : List WorkerRow → Option WorkerRow)
    (workers : List WorkerRow) (schema : SchemaModel) (now : Int) : Option String :=
  let candidates := workers.filter (fun w => w.partitionKey == some schema.worker)
  let validWorkers := getActiveWorkers now 3 candidates
  if !validWorkers.isEmpty then (pick validWorkers).bind (fun w => w.queue)
  else none

/-! ## The approval handlers (function_app.py:1151-1505 `approve`,
1505-1700 `reject`)

The model keeps the handlers' decision structure — the order of the guards,
which log row (if any) is appended, and which queue (if any) receives the
dispatch — and omits presentation-side effects (HTML rendering, Slack
notification, audit logging) which do not feed back into the decision.
The authenticated-session lookup only chooses the `approver` display name and
is likewise omitted. -/

/-- The full log entity `build_log_entry` (function_app.py:399-438) returns. -/
structure LogEntry where
  partitionKey : String
  rowKey : String
  execId : Option String
  status : String
  requestedAt : String
  name : Option String
  id : Option String
  runbook : Option String
  runArgs : Option String
  worker : Option String
  log : Option String
  oncall : Option String
  monitorCondition : Option String
  severity : Option String
  approvalRequired : Option Bool
  approvalExpiresAt : Option String
  approvalDecisionBy : Option String
deriving DecidableEq

/-- `build_log_entry`: a plain record build. -/
def buildLogEntry (status : String) (partitionKey rowKey : String)
    (execId : Option String) (requestedAt : String)
    (name id runbook runArgs worker logMsg oncall monitorCondition severity :
      Option String)
    (approvalRequired : Option Bool := none)
    (approvalExpiresAt : Option String := none)
    (approvalDecisionBy : Option String := none) : LogEntry :=
  { partitionKey := partitionKey, rowKey := rowKey, execId := execId,
    status := status, requestedAt := requestedAt, name := name, id := id,
    runbook := runbook, runArgs := runArgs, worker := worker, log := logMsg,
    oncall := oncall, monitorCondition := monitorCondition, severity := severity,
    approvalRequired := approvalRequired, approvalExpiresAt := approvalExpiresAt,
    approvalDecisionBy := approvalDecisionBy }

/-- Ambient inputs of a handler call that are not request data: the secret,
the stdlib primitives, the clock, and the fresh identifiers/timestamps the
handler mints (`utils.today_partition_key()`, `utils.format_requested_at()`,
`uuid.uuid4()`). -/
structure GateEnv where
  secret : String
  mac : String → String → String
  loads : List Nat → Option ApprovalPayload
  parseIso : String → Option Int
  now : Int
  partitionKey : String
  requestedAt : String
  rowKey : String
  approver : String

/-- Request data of an approval-handler call. -/
structure GateReq where
  routeExecId : Option String := none
  p : Option String := none
  s : Option String := none

/-- Observable outcome of a handler call: HTTP status, the log row appended
via the `log_table` output binding (if any), and the worker queue a job
message was sent to (if any). -/
structure HandlerRes where
  status : Nat
  logWrite : Option LogEntry
  dispatchedQueue : Option String
deriving DecidableEq

/-- The dispatch phase of `approve` — everything after the idempotency gate
passes: schema lookup, worker selection, queue send (`queueSendOk` is the
oracle for the `q_client.send_message` call), log append, response.
On the success path the handler renders an HTML page (HTTP 200) whose
`status_label` is `"accepted"` or `"error"`; a queue failure or the absence of
a live worker yields the `"error"` label but still the 200 page. -/
def approveDispatch (env : GateEnv) (payload : ApprovalPayload) (execId : String)
    (schemas : Option (List SchemaEntity)) (workers : List WorkerRow)
    (pick : List WorkerRow → Option WorkerRow) (queueSendOk : Bool) : HandlerRes :=
  let schemaId := pyStr payload.schemaId
  match schemas with
  | none => { status := 500, logWrite := none, dispatchedQueue := none }
  | some entities =>
      match entities.find? (fun e => getId e == schemaId) with
      | none => { status := 404, logWrite := none, dispatchedQueue := none }
      | some ent =>
          match schemaOfEntity ent with
          | none => { status := 500, logWrite := none, dispatchedQueue := none }
          | some schema =>
              let targetQueue := workerRouting pick workers schema env.now
              let sent := targetQueue.isSome && queueSendOk
              let statusLabel := if sent then "accepted" else "error"
              let entry := buildLogEntry statusLabel env.partitionKey env.rowKey
                (some execId) env.requestedAt (some schema.name) (some schema.id)
                schema.runbook (some schema.runArgs) (some schema.worker)
                (some "Approved and executed") (some schema.oncall)
                (some (pyStr payload.monitorCondition)) (some (pyStr payload.severity))
                (some true) none (some env.approver)
              { status := 200, logWrite := some entry,
                dispatchedQueue := if sent then targetQueue else none }

/-- The `approve` handler (function_app.py:1151-1505): route `execId`
presence (400), token verification (401), idempotency gate (409), then
dispatch.  `rows` is the parsed `today_logs` table binding
(`_rows_from_binding`). -/
def approve (env : GateEnv) (req : GateReq) (rows : List LogRow)
    (schemas : Option (List SchemaEntity)) (workers : List WorkerRow)
    (pick : List WorkerRow → Option WorkerRow) (queueSendOk : Bool) : HandlerRes :=
  let execId := pyTrim (pyStr req.routeExecId)
  let p := pyTrim (pyStr req.p)
  let s := pyTrim (pyStr req.s)
  if execId = "" then { status := 400, logWrite := none, dispatchedQueue := none }
  else
    match verifySignedPayload env.secret env.mac env.loads env.parseIso env.now
        execId p s with
    | (false, _) => { status := 401, logWrite := none, dispatchedQueue := none }
    | (true, payload) =>
        if !onlyPendingForExec rows execId then
          { status := 409, logWrite := none, dispatchedQueue := none }
        else approveDispatch env payload execId schemas workers pick queueSendOk

/-- The tail of `reject` after all its guards pass: schema lookup and the
`status="rejected"` log append; the handler then renders the 200 page. -/
def rejectDecide (env : GateEnv) (payload : ApprovalPayload) (execId : String)
    (schemas : Option (List SchemaEntity)) : HandlerRes :=
  let schemaId := pyStr payload.schemaId
  match schemas with
  | none => { status := 500, logWrite := none, dispatchedQueue := none }
  | some entities =>
      match entities.find? (fun e => getId e == schemaId) with
      | none => { status := 404, logWrite := none, dispatchedQueue := none }
      | some ent =>
          match schemaOfEntity ent with
          | none => { status := 500, logWrite := none, dispatchedQueue := none }
          | some schema =>
              let entry := buildLogEntry "rejected" env.partitionKey env.rowKey
                (some execId) env.requestedAt (some schema.name) (some schema.id)
                schema.runbook (some schema.runArgs) (some schema.worker)
                (some "Rejected by approver") (some schema.oncall)
                (some (pyStr payload.monitorCondition)) (some (pyStr payload.severity))
                (some true) none (some env.approver)
              { status := 200, logWrite := some entry, dispatchedQueue := none }

/-- The `reject` handler (function_app.py:1505-1700).  Note the source order:
the idempotency gate (409) runs *before* the missing-`execId` check (400) and
before token verification (401). -/
def reject (env : GateEnv) (req : GateReq) (rows : List LogRow)
    (schemas : Option (List SchemaEntity)) : HandlerRes :=
  let execId := pyTrim (pyStr req.routeExecId)
  if !onlyPendingForExec rows execId then
    { status := 409, logWrite := none, dispatchedQueue := none }
  else
    let p := pyTrim (pyStr req.p)
    let s := pyTrim (pyStr req.s)
    if execId = "" then { status := 400, logWrite := none, dispatchedQueue := none }
    else
      match verifySignedPayload env.secret env.mac env.loads env.parseIso env.now
          execId p s with
      | (false, _) => { status := 401, logWrite := none, dispatchedQueue := none }
      | (true, payload) => rejectDecide env payload execId schemas

/-! ## Worker: duplicate suppression and status reporting
(src/core/worker/function_app.py) -/

/-- An `_ACTIVE_RUNS` registry value, restricted to the keys
`_inspect_duplicate_runs` reads.  Entries are built by `process_runbook`
(worker function_app.py:518-529) and always carry these keys; a value is
`none` when the originating job payload lacked the field. -/
structure ActiveRun where
  name : Option String := none
  runbook : Option String := none
  runArgs : Option String := none
deriving DecidableEq

/-- An incoming job payload, restricted to the fields the duplicate gate and
the status reporter read. -/
structure JobPayload where
  requestedAt : Option String := none
  id : Option String := none
  name : Option String := none
  execId : Option String := none
  runbook : Option String := none
  runArgs : Option String := none
  worker : Option String := none
  oncall : Option String := none
  monitorCondition : Option String := none
  severity : Option String := none
deriving DecidableEq

/-- `_inspect_duplicate_runs` (worker function_app.py:478-487), verbatim
control flow: the loop body ends in `if match: return True / else: return
False`, so the function decides on the *first* item alone and returns `None`
(Python) only for an empty list. -/
def inspectDuplicateRuns : List ActiveRun → JobPayload → Option Bool
  | [], _ => none
  | item :: _, payload =>
      if item.name = payload.name ∧ item.runbook = payload.runbook ∧
          item.runArgs = payload.runArgs then
        some true
      else
        some false

/-- The duplicate gate of `process_runbook` (worker function_app.py:505-514):
`if _inspect_duplicate_runs(items, payload):` — Python truthiness, `None`
counts as no duplicate.  `true` = report `skipped` and return without
executing. -/
def processRunbookSkips (items : List ActiveRun) (payload : JobPayload) : Bool :=
  (inspectDuplicateRuns items payload).getD false

/-- An item matches the payload on the duplicate-suppression key
`(name, runbook, run_args)`. -/
def dupMatches (item : ActiveRun) (payload : JobPayload) : Prop :=
  item.name = payload.name ∧ item.runbook = payload.runbook ∧
    item.runArgs = payload.runArgs

/-! ### Outcome / notification messages -/

/-- The JSON message both status reporters put on the notification queue
(worker function_app.py:102-130; orchestrator function_app.py:441-475).
`logsB64` is the base64 text after the byte cap. -/
structure NotifMessage where
  requestedAt : Option String
  id : Option String
  name : Option String
  execId : Option String
  runbook : Option String
  runArgs : Option String
  worker : Option String
  status : String
  oncall : Option String
  monitorCondition : Option String
  severity : Option String
  logsB64 : List Char
  contentType : String
  sentAt : String
deriving DecidableEq

/-- Worker `encode_logs` (worker function_app.py:73-80): empty or absent text
encodes to `b""`, otherwise standard base64 of the UTF-8 bytes.  The log text
is carried as its UTF-8 byte list. -/
def encode_logs (value : List Nat) : List Char :=
  if value.isEmpty then [] else b64sRaw value

/-- Worker `_post_status` (worker function_app.py:102-130): truncate the
encoded logs to `MAX_LOG_BODY_BYTES` (env, default 131072) and build the
message.  `sentAt` stands for `_format_requested_at()`. -/
def workerPostStatus (maxLogBodyBytes : Nat) (payload : JobPayload)
    (status : String) (logMessage : List Nat) (sentAt : String) : NotifMessage :=
  let logBytes := encode_logs logMessage
  let logBytes :=
    if logBytes.length > maxLogBodyBytes then logBytes.take maxLogBodyBytes
    else logBytes
  { requestedAt := payload.requestedAt, id := payload.id, name := payload.name,
    execId := payload.execId, runbook := payload.runbook,
    runArgs := payload.runArgs, worker := payload.worker, status := status,
    oncall := payload.oncall, monitorCondition := payload.monitorCondition,
    severity := payload.severity, logsB64 := logBytes,
    contentType := "text/plain; charset=utf-8", sentAt := sentAt }

/-- The default of the worker's `MAX_LOG_BODY_BYTES` environment knob
(worker function_app.py:30-32): `131072` bytes. -/
def MAX_LOG_BODY_BYTES_DEFAULT : Nat := 131072

/-- Orchestrator `_encode_logs` (orchestrator function_app.py:280-283):
standard base64 of the UTF-8 bytes, no empty-input special case. -/
def encodeLogsOrch (text : List Nat) : List Char := b64sRaw text

/-- Orchestrator `_post_status` (orchestrator function_app.py:441-475): the
cap is the local constant `MAX_LOG_BODY_BYTES = 64 * 1024`. -/
def orchestratorPostStatus (payload : JobPayload) (status : String)
    (logMessage : List Nat) (sentAt : String) : NotifMessage :=
  let logBytes := encodeLogsOrch logMessage
  let maxLogBodyBytes := 64 * 1024
  let logBytes :=
    if logBytes.length > maxLogBodyBytes then logBytes.take maxLogBodyBytes
    else logBytes
  { requestedAt := payload.requestedAt, id := payload.id, name := payload.name,
    execId := payload.execId, runbook := payload.runbook,
    runArgs := payload.runArgs, worker := payload.worker, status := status,
    oncall := payload.oncall, monitorCondition := payload.monitorCondition,
    severity := payload.severity, logsB64 := logBytes,
    contentType := "text/plain; charset=utf-8", sentAt := sentAt }

/-! ## Escalation routing engine (smart_routing.py)

`load_routing_config()` reads table storage / environment: its result is the
`RoutingConfig` parameter.  `_get_setting` merges a table lookup and an
environment lookup: the combined store is the `settings` parameter. -/

/-- The double-quote character, written by code point to keep it out of
character-literal syntax. -/
def quoteChar : Char := Char.ofNat 34

/-- The single-quote character, written by code point. -/
def squoteChar : Char := Char.ofNat 39

/-- Python `str(v).strip().strip(QUOTE).strip(SQUOTE)` — the cleanup both
`_get_setting` and the api-key handling apply. -/
def cleanSetting (v : String) : String :=
  stripChar squoteChar (stripChar quoteChar (pyTrim v))

/-- `_get_setting` (smart_routing.py:291-313) over the combined
settings store; a present-but-falsy value falls through to `none`. -/
def getSetting (settings : String → Option String) (key : String) : Option String :=
  match settings key with
  | some v => if v = "" then none else some (cleanSetting v)
  | none => none

/-- `resolve_opsgenie_apikey` (smart_routing.py:316-329). -/
def resolveOpsgenieApikey (settings : String → Option String)
    (team : Option String) : Option String :=
  let fromTeam : Option String :=
    if pyTruthy team then
      getSetting settings (pyReplace (pyUpper ("OPSGENIE_API_KEY_" ++ pyStr team)) "-" "_")
    else none
  if pyTruthy fromTeam then fromTeam
  else pyOrS (getSetting settings "OPSGENIE_API_KEY_DEFAULT")
         (getSetting settings "OPSGENIE_API_KEY")

/-- `resolve_slack_token` (smart_routing.py:332-343). -/
def resolveSlackToken (settings : String → Option String)
    (team : Option String) : Option String :=
  let fromTeam : Option String :=
    if pyTruthy team then
      getSetting settings (pyReplace (pyUpper ("SLACK_TOKEN_" ++ pyStr team)) "-" "_")
    else none
  if pyTruthy fromTeam then fromTeam
  else getSetting settings "SLACK_TOKEN_DEFAULT"

/-- Python `int(s)` on a stripped decimal literal (sign and digits). -/
def pyInt (s : String) : Option Int :=
  let t := (pyTrim s).data
  let (sign, digits) :=
    match t with
    | '-' :: rest => ((-1 : Int), rest)
    | '+' :: rest => ((1 : Int), rest)
    | _ => ((1 : Int), t)
  if digits.isEmpty || !digits.all Char.isDigit then none
  else some (sign * (digits.foldl (fun a c => a * 10 + (c.toNat - 48)) 0 : Nat))

/-- `_sev_to_num` (smart_routing.py:119-132): `SevN` → `N`; falsy input or a
non-numeric remnant → `None`. -/
def sevToNum (sev : Option String) : Option Int :=
  if !pyTruthy sev then none
  else
    let s := trimLower (pyStr sev)
    let s := if pyStartsWith s "sev" then pyReplace s "sev" "" else s
    pyInt s

/-- `_eq` (smart_routing.py:135-138): case-insensitive stripped equality,
`None` on either side is unequal. -/
def pyEqCI (a b : Option String) : Bool :=
  match a, b with
  | some x, some y => trimLower x == trimLower y
  | _, _ => false

/-- `_starts` (smart_routing.py:141-144). -/
def pyStarts (a p : Option String) : Bool :=
  match a, p with
  | some x, some y => pyStartsWith (pyLower x) (pyLower y)
  | _, _ => false

/-- `_subscription_from_resource_id` (smart_routing.py:147-154). -/
def subscriptionFromResourceId (rid : Option String) : Option String :=
  let parts := pySplitSlash (pyStr rid)
  if parts.length > 2 ∧ pyLower (parts.getD 1 "") = "subscriptions" then
    some (parts.getD 2 "")
  else none

/-- A JSON scalar as a rule's `isAlert` value can be (string or boolean). -/
inductive PyLit
  | str (s : String)
  | bool (b : Bool)
deriving DecidableEq

/-- A rule's `when` clause; a field is `some _` exactly when the JSON key is
present (the source tests `"key" in when`). -/
structure RuleWhen where
  anyKey : Option String := none
  finalOnly : Option Bool := none
  statusIn : Option (List String) := none
  resourceId : Option String := none
  resourceGroup : Option String := none
  resourceName : Option String := none
  subscriptionId : Option String := none
  namespaceK : Option String := none
  schemaName : Option String := none
  oncall : Option String := none
  resourceGroupPrefix : Option String := none
  isAlert : Option PyLit := none
  severityMin : Option String := none
  severityMax : Option String := none
deriving DecidableEq

/-- One entry of a rule's `then` list. -/
structure ThenAction where
  type : Option String := none
  team : Option String := none
  channel : Option String := none
  token : Option String := none
  apiKey : Option String := none
deriving DecidableEq

/-- A routing rule. -/
structure Rule where
  whenCond : RuleWhen := {}
  thenActs : List ThenAction := []
deriving DecidableEq

/-- Per-team configuration (`teams.<name>.slack.channel`,
`teams.<name>.opsgenie.team`). -/
structure TeamConf where
  slackChannel : Option String := none
  opsgenieTeam : Option String := none
deriving DecidableEq

/-- `defaults.slack.channel` and `defaults.opsgenie.team`. -/
structure RoutingDefaults where
  slackChannel : Option String := none
  opsgenieTeam : Option String := none
deriving DecidableEq

/-- The routing configuration `load_routing_config()` returns. -/
structure RoutingConfig where
  defaults : RoutingDefaults := {}
  teams : List (String × TeamConf) := []
  rules : List Rule := []

/-- Routing hints carried in the alert context (`routing_info`). -/
structure RoutingInfo where
  team : Option String := none
  slackToken : Option String := none
  slackChannel : Option String := none
  opsgenieToken : Option String := none
deriving DecidableEq

/-- An alert context as the callers of `route_alert` assemble it.
(`namespaceK` models the `"namespace"` key.) -/
structure RawCtx where
  resourceId : Option String := none
  resourceGroup : Option String := none
  resourceName : Option String := none
  schemaName : Option String := none
  severity : Option String := none
  namespaceK : Option String := none
  oncall : Option String := none
  status : Option String := none
  execId : Option String := none
  name : Option String := none
  id : Option String := none
  routingInfo : Option RoutingInfo := none
deriving DecidableEq

/-- The normalised context `normalize_context` produces. -/
structure NormCtx where
  resourceId : Option String
  resourceGroup : Option String
  resourceName : Option String
  schemaName : Option String
  severity : Option String
  namespaceK : Option String
  oncall : String
  status : Option String
  execId : Option String
  name : Option String
  id : Option String
  routingInfo : RoutingInfo
deriving DecidableEq

/-- `normalize_context` (smart_routing.py:349-369). -/
def normalizeContext (raw : RawCtx) : NormCtx :=
  { resourceId := raw.resourceId, resourceGroup := raw.resourceGroup,
    resourceName := raw.resourceName, schemaName := raw.schemaName,
    severity := raw.severity, namespaceK := raw.namespaceK,
    oncall := trimLower (pyStr raw.oncall), status := raw.status,
    execId := raw.execId, name := raw.name, id := raw.id,
    routingInfo := raw.routingInfo.getD {} }

/-- `_match_when` (smart_routing.py:157-287).  The source is a chain of
early `return False` checks; each check is rendered as a `fails*` flag and
the function returns the negation of their disjunction, which is the same
function. -/
def matchWhen (w : RuleWhen) (ctx : NormCtx) : Bool :=
  if w.anyKey == some "*" then true
  else
    let status := trimLower (pyStr ctx.status)
    let sev := sevToNum ctx.severity
    let failsFinalOnly := (w.finalOnly.getD true) &&
      !(["succeeded", "error", "failed", "timeout", "routed"].contains status)
    let failsStatusIn :=
      match w.statusIn with
      | some lst =>
          let allowed := lst.map trimLower
          !allowed.isEmpty && !(allowed.contains status)
      | none => false
    let failsResourceId :=
      match w.resourceId with
      | some v => !pyEqCI ctx.resourceId (some v)
      | none => false
    let failsResourceGroup :=
      match w.resourceGroup with
      | some v => !pyEqCI ctx.resourceGroup (some v)
      | none => false
    let failsResourceName :=
      match w.resourceName with
      | some v => !pyEqCI ctx.resourceName (some v)
      | none => false
    let failsSubscription :=
      match w.subscriptionId with
      | some v => !pyEqCI (subscriptionFromResourceId ctx.resourceId) (some v)
      | none => false
    let failsNamespace :=
      match w.namespaceK with
      | some v => !pyEqCI ctx.namespaceK (some v)
      | none => false
    let failsSchemaName :=
      match w.schemaName with
      | some v => !pyEqCI ctx.schemaName (some v)
      | none => false
    let failsOncall :=
      match w.oncall with
      | some v => !pyEqCI (some ctx.oncall) (some v)
      | none => false
    let failsPrefix :=
      match w.resourceGroupPrefix with
      | some v => !pyStarts ctx.resourceGroup (some v)
      | none => false
    let failsIsAlert :=
      match w.isAlert with
      | some raw =>
          let shouldBeAlert :=
            match raw with
            | .str s => trimLower s == "true"
            | .bool b => b
          let isAlert := sev.isSome ||
            (["failed", "error", "timeout"].contains status)
          shouldBeAlert != isAlert
      | none => false
    let failsSevMin :=
      match w.severityMin with
      | some mv =>
          match sevToNum (some mv) with
          | some minv =>
              match sev with
              | none => true
              | some sv => decide (sv < minv)
          | none => false
      | none => false
    let failsSevMax :=
      match w.severityMax with
      | some mv =>
          match sevToNum (some mv) with
          | some maxv =>
              match sev with
              | none => true
              | some sv => decide (sv > maxv)
          | none => false
      | none => false
    !(failsFinalOnly || failsStatusIn || failsResourceId || failsResourceGroup ||
      failsResourceName || failsSubscription || failsNamespace ||
      failsSchemaName || failsOncall || failsPrefix || failsIsAlert ||
      failsSevMin || failsSevMax)

/-- The `Action` dataclass (smart_routing.py:14-20). -/
structure RouteAction where
  type : String
  channel : Option String := none
  token : Option String := none
  team : Option String := none
  apiKey : Option String := none
deriving DecidableEq

/-- The `RoutingDecision` dataclass (smart_routing.py:23-28). -/
structure RoutingDecision where
  actions : List RouteAction
  matchedRuleIndex : Option Nat
  matchedTeam : Option String
  reason : String
deriving DecidableEq

/-- `teams_cfg.get(name, {})` for a possibly-falsy team name. -/
def teamConfOf (cfg : RoutingConfig) (teamName : Option String) : TeamConf :=
  if pyTruthy teamName then (cfg.teams.lookup (pyStr teamName)).getD {} else {}

/-- The per-rule `then` loop of `route_alert` (smart_routing.py:420-462):
resolve each supported action's credentials; the second component threads
`matched_team = matched_team or team_name`. -/
def resolveThenActions (cfg : RoutingConfig) (settings : String → Option String)
    (riTeam riSlackToken riSlackChannel riOpsgenieToken : Option String)
    (thens : List ThenAction) : List RouteAction × Option String :=
  thens.foldl
    (fun acc t =>
      if t.type ≠ some "slack" ∧ t.type ≠ some "opsgenie" then acc
      else
        let teamName := pyOrS t.team riTeam
        let teamConf := teamConfOf cfg teamName
        let matchedTeam := pyOrS acc.2 teamName
        if t.type = some "slack" then
          let channel := pyOrS (pyOrS (pyOrS t.channel teamConf.slackChannel)
            cfg.defaults.slackChannel) riSlackChannel
          let token := pyOrS (pyOrS t.token (resolveSlackToken settings teamName))
            riSlackToken
          (acc.1 ++ [{ type := "slack", channel := channel, token := token,
                       team := teamName }], matchedTeam)
        else
          let ogTeam := pyOrS (pyOrS (pyOrS teamName teamConf.opsgenieTeam)
            cfg.defaults.opsgenieTeam) riTeam
          let apiKey0 := pyOrS (pyOrS t.apiKey
            (resolveOpsgenieApikey settings ogTeam)) riOpsgenieToken
          let apiKey :=
            if pyTruthy apiKey0 then some (cleanSetting (pyStr apiKey0)) else apiKey0
          (acc.1 ++ [{ type := "opsgenie", team := ogTeam, apiKey := apiKey }],
            matchedTeam))
    ([], none)

/-- The supplemental-Slack block (smart_routing.py:464-486): when the rule
produced a Slack action but none for the hinted team, append one. -/
def supplementSlack (cfg : RoutingConfig) (settings : String → Option String)
    (riTeam riSlackToken riSlackChannel : Option String)
    (resolved : List RouteAction) : List RouteAction :=
  if (resolved.any (fun a => a.type == "slack")) && pyTruthy riTeam then
    let alreadySlackForTeam :=
      resolved.any (fun a => a.type == "slack" && a.team == riTeam)
    if !alreadySlackForTeam then
      let riTeamConf := (cfg.teams.lookup (pyStr riTeam)).getD {}
      let extraChannel := pyOrS (pyOrS riSlackChannel riTeamConf.slackChannel)
        cfg.defaults.slackChannel
      let extraToken := pyOrS riSlackToken (resolveSlackToken settings riTeam)
      if pyTruthy extraChannel || pyTruthy extraToken then
        resolved ++ [{ type := "slack", channel := extraChannel,
                       token := extraToken, team := riTeam }]
      else resolved
    else resolved
  else resolved

/-- The supplemental-Opsgenie block (smart_routing.py:488-505). -/
def supplementOpsgenie (cfg : RoutingConfig) (settings : String → Option String)
    (riTeam riOpsgenieToken : Option String) (resolved : List RouteAction) :
    List RouteAction :=
  if (resolved.any (fun a => a.type == "opsgenie")) &&
      (pyTruthy riTeam || pyTruthy riOpsgenieToken) then
    let ogExtraTeam := pyOrS riTeam cfg.defaults.opsgenieTeam
    let alreadyOgForTeam :=
      resolved.any (fun a => a.type == "opsgenie" && a.team == ogExtraTeam)
    if !alreadyOgForTeam then
      let extraApiKey := pyOrS riOpsgenieToken
        (resolveOpsgenieApikey settings ogExtraTeam)
      if pyTruthy extraApiKey then
        resolved ++ [{ type := "opsgenie", team := ogExtraTeam,
                       apiKey := some (cleanSetting (pyStr extraApiKey)) }]
      else resolved
    else resolved
  else resolved

/-- The rule loop of `route_alert` (smart_routing.py:414-516): first matching
rule that resolves a non-empty action list wins; a matching rule with no
resolvable action falls through to the next. -/
def evalRules (cfg : RoutingConfig) (settings : String → Option String)
    (riTeam riSlackToken riSlackChannel riOpsgenieToken : Option String)
    (ctx : NormCtx) : Nat → List Rule → Option RoutingDecision
  | _, [] => none
  | idx, rule :: rest =>
      if !matchWhen rule.whenCond ctx then
        evalRules cfg settings riTeam riSlackToken riSlackChannel riOpsgenieToken
          ctx (idx + 1) rest
      else
        let (resolved0, matchedTeam) := resolveThenActions cfg settings riTeam
          riSlackToken riSlackChannel riOpsgenieToken rule.thenActs
        let resolved1 := supplementSlack cfg settings riTeam riSlackToken
          riSlackChannel resolved0
        let resolved := supplementOpsgenie cfg settings riTeam riOpsgenieToken
          resolved1
        if !resolved.isEmpty then
          some { actions := resolved, matchedRuleIndex := some idx,
                 matchedTeam := matchedTeam, reason := "matched" }
        else
          evalRules cfg settings riTeam riSlackToken riSlackChannel
            riOpsgenieToken ctx (idx + 1) rest

/-- `route_alert` (smart_routing.py:375-541): normalise, extract hints,
evaluate rules in order, and fall back to a single default Opsgenie action for
the statuses in its final-outcome set — otherwise no action. -/
def routeAlert (cfg : RoutingConfig) (settings : String → Option String)
    (raw : RawCtx) : RoutingDecision :=
  let ctx := normalizeContext raw
  let ri := ctx.routingInfo
  let riTeam := let t := pyTrim (pyStr ri.team); if t = "" then none else some t
  let riSlackToken := if pyTruthy ri.slackToken then ri.slackToken else none
  let riSlackChannel := if pyTruthy ri.slackChannel then ri.slackChannel else none
  let riOpsgenieToken := if pyTruthy ri.opsgenieToken then ri.opsgenieToken else none
  let status := trimLower (pyStr ctx.status)
  match evalRules cfg settings riTeam riSlackToken riSlackChannel riOpsgenieToken
      ctx 0 cfg.rules with
  | some d => d
  | none =>
      if ["error", "failed", "timeout", "routed", "scheduled"].contains status then
        let ogTeam := pyOrS riTeam cfg.defaults.opsgenieTeam
        let apiKey := pyOrS riOpsgenieToken (resolveOpsgenieApikey settings ogTeam)
        { actions := [{ type := "opsgenie", team := ogTeam, apiKey := apiKey }],
          matchedRuleIndex := none, matchedTeam := none,
          reason := "fallback_opsgenie" }
      else
        { actions := [], matchedRuleIndex := none, matchedTeam := none,
          reason := "no_action_non_final" }

/-! ### `execute_actions` (smart_routing.py:549-614)

The notification payload's contents never influence control flow; only the
presence of its `"slack"` / `"opsgenie"` entries does (`payload["slack"]`
raises `KeyError` when absent).  The senders are oracles: `none` models an
unprovided callable (calling it raises `TypeError`); the function returning
`false` models the call raising. -/

/-- Presence of the two sub-payloads of the notification payload dict. -/
structure NotifPayload where
  slack : Bool := false
  opsgenie : Bool := false
deriving DecidableEq

/-- One iteration body of the action loop, up to its `try`: `.error` marks
every point where the source can raise (missing credential, `payload[...]`
lookup, unprovided or raising sender); `.ok true` is a completed send
(`any_success = True`), `.ok false` an unsupported action type (no-op). -/
def attemptAction (pl : NotifPayload) (sendS : Option (String → String → Bool))
    (sendO : Option (String → Bool)) (a : RouteAction) : Except String Bool :=
  if a.type = "slack" then
    if !pyTruthy a.token then .error "Missing Slack token"
    else if !pyTruthy a.channel then .error "Missing Slack channel"
    else if !pl.slack then .error "KeyError: slack"
    else
      match sendS with
      | none => .error "TypeError: send_slack_fn is None"
      | some f =>
          if f (pyStr a.token) (pyStr a.channel) then .ok true
          else .error "send_slack_fn raised"
  else if a.type = "opsgenie" then
    if !pyTruthy a.apiKey then .error "Missing Opsgenie apiKey"
    else if !pl.opsgenie then .error "KeyError: opsgenie"
    else
      match sendO with
      | none => .error "TypeError: send_opsgenie_fn is None"
      | some f =>
          if f (pyStr a.apiKey) then .ok true else .error "send_opsgenie_fn raised"
  else .ok false

/-- The loop body with its `except Exception: continue`: a raise is caught
and the action is recorded as attempted-but-failed. -/
def execStep (pl : NotifPayload) (sendS : Option (String → String → Bool))
    (sendO : Option (String → Bool))
    (acc : List (RouteAction × Bool) × Bool) (a : RouteAction) :
    List (RouteAction × Bool) × Bool :=
  match attemptAction pl sendS sendO a with
  | .ok b => (acc.1 ++ [(a, b)], acc.2 || b)
  | .error _ => (acc.1 ++ [(a, false)], acc.2)

/-- Observable trace of one `execute_actions` call: each attempted action
with its success flag, the final `any_success`, and whether the last-resort
Opsgenie fallback was attempted / its send completed. -/
structure ExecTrace where
  attempts : List (RouteAction × Bool)
  anySuccess : Bool
  fallbackAttempted : Bool
  fallbackSendOk : Bool
deriving DecidableEq

/-- The action loop of `execute_actions` (smart_routing.py:557-578): the
attempted actions with their success flags, and the final `any_success`. -/
def execLoop (decision : RoutingDecision) (pl : NotifPayload)
    (sendS : Option (String → String → Bool)) (sendO : Option (String → Bool)) :
    List (RouteAction × Bool) × Bool :=
  decision.actions.foldl (execStep pl sendS sendO) ([], false)

/-- The last-resort fallback block of `execute_actions`
(smart_routing.py:580-614): guarded by `not any_success and reason !=
"no_action_non_final"`; the call is attempted only when a default Opsgenie
key resolves (`OPSGENIE_API_KEY_DEFAULT` / `OPSGENIE_API_KEY`), otherwise it
is skipped with a log line.  First component: the call site was reached;
second: the send completed.  Every raise inside sits under the block's
`try/except`. -/
def execFallback (anySucc : Bool) (reason : String) (pl : NotifPayload)
    (sendO : Option (String → Bool)) (settings : String → Option String) :
    Bool × Bool :=
  if !anySucc ∧ reason ≠ "no_action_non_final" then
    let apiKey := resolveOpsgenieApikey settings none
    if pyTruthy apiKey then
      let sendResult : Except String Unit :=
        if !pl.opsgenie then .error "KeyError: opsgenie"
        else
          match sendO with
          | none => .error "TypeError: send_opsgenie_fn is None"
          | some f => if f (pyStr apiKey) then .ok () else .error "raised"
      match sendResult with
      | .ok _ => (true, true)
      | .error _ => (true, false)
    else (false, false)
  else (false, false)

/-- `execute_actions`: fan out over the decided actions, then — when nothing
succeeded and the decision is not the non-final no-action case — attempt one
default-keyed Opsgenie call.  The result is `Except.ok` for every input: each
raise point of the source sits inside one of its `try/except` blocks. -/
def executeActions (decision : RoutingDecision) (pl : NotifPayload)
    (sendS : Option (String → String → Bool)) (sendO : Option (String → Bool))
    (settings : String → Option String) : Except String ExecTrace :=
  let folded := execLoop decision pl sendS sendO
  let fb := execFallback folded.2 decision.reason pl sendO settings
  .ok { attempts := folded.1, anySuccess := folded.2, fallbackAttempted := fb.1,
        fallbackSendOk := fb.2 }

/-! ## Helper lemmas for the claims -/

theorem truncLen (l : List Char) (m : Nat) :
    (if l.length > m then l.take m else l).length = min l.length m := by
  by_cases h : l.length > m <;> simp [h, List.length_take] <;> omega

/-! ## Claims -/

/-- C3 — The spec says the duplicate gate scans *all* active runs and skips
when *any* of them matches the incoming payload on `(name, runbook,
run_args)`.  The code's loop returns on its first iteration
(`if ...: return True / else: return False`), so a duplicate sitting at any
position after the first is missed: with a non-matching first item and a
matching second item, `_inspect_duplicate_runs` answers `False` and
`process_runbook` proceeds to execute instead of reporting `skipped`. -/
theorem C3_duplicate_scan_first_item_only :
    dupMatches { name := some "B", runbook := some "y.py", runArgs := some "2" }
      { name := some "B", runbook := some "y.py", runArgs := some "2" } ∧
    inspectDuplicateRuns
      [{ name := some "A", runbook := some "x.py", runArgs := some "1" },
       { name := some "B", runbook := some "y.py", runArgs := some "2" }]
      { name := some "B", runbook := some "y.py", runArgs := some "2" }
      = some false ∧
    processRunbookSkips
      [{ name := some "A", runbook := some "x.py", runArgs := some "1" },
       { name := some "B", runbook := some "y.py", runArgs := some "2" }]
      { name := some "B", runbook := some "y.py", runArgs := some "2" }
      = false := by
  refine ⟨⟨rfl, rfl, rfl⟩, rfl, rfl⟩

/-- C8 (amended) — Outcome-message log caps as the code implements them:
the orchestrator's `_post_status` caps `logs_b64` at `64 * 1024 = 65536`
bytes, the worker's at its `MAX_LOG_BODY_BYTES` setting, whose default is
`131072` bytes (~128 KB) — twice the ~64 KB the claim states.  In both cases
the cap is an exact truncation of the base64 text. -/
theorem C8_log_caps (payload : JobPayload) (status sentAt : String)
    (logBytes : List Nat) (maxBytes : Nat) :
    (orchestratorPostStatus payload status logBytes sentAt).logsB64.length =
      min (encodeLogsOrch logBytes).length 65536 ∧
    (orchestratorPostStatus payload status logBytes sentAt).logsB64.length ≤ 65536 ∧
    (workerPostStatus maxBytes payload status logBytes sentAt).logsB64.length =
      min (encode_logs logBytes).length maxBytes ∧
    (workerPostStatus MAX_LOG_BODY_BYTES_DEFAULT payload status logBytes
        sentAt).logsB64.length ≤ 131072 := by
  have h1 : (orchestratorPostStatus payload status logBytes sentAt).logsB64.length =
      min (encodeLogsOrch logBytes).length 65536 := by
    simp only [orchestratorPostStatus]
    exact truncLen _ _
  have h2 : (workerPostStatus maxBytes payload status logBytes sentAt).logsB64.length =
      min (encode_logs logBytes).length maxBytes := by
    simp only [workerPostStatus]
    exact truncLen _ _
  have h3 : (workerPostStatus MAX_LOG_BODY_BYTES_DEFAULT payload status logBytes
      sentAt).logsB64.length = min (encode_logs logBytes).length 131072 := by
    simp only [workerPostStatus, MAX_LOG_BODY_BYTES_DEFAULT]
    exact truncLen _ _
  refine ⟨h1, ?_, h2, ?_⟩
  · rw [h1]; omega
  · rw [h3]; omega

/-- C8, counterexample — with the worker's default cap, a 60000-byte log
body yields a `logs_b64` of 80000 bytes on the notification queue: well over
the claimed ~64 KB (65536) cap. -/
theorem C8_counterexample :
    (workerPostStatus MAX_LOG_BODY_BYTES_DEFAULT {} "failed"
        (List.replicate 60000 65) "t").logsB64.length = 80000 ∧
    65536 < 80000 := by
  have hcons : List.replicate 60000 (65 : Nat) = 65 :: List.replicate 59999 65 := by
    rw [show (60000 : Nat) = 59999 + 1 from rfl, List.replicate_succ]
  have hne : (List.replicate 60000 (65 : Nat)).isEmpty = false := by
    rw [hcons]; rfl
  have hlen : (encode_logs (List.replicate 60000 65)).length = 80000 := by
    simp only [encode_logs, hne, Bool.false_eq_true, if_false]
    rw [b64sRaw_length, List.length_replicate]
  constructor
  · simp only [workerPostStatus, MAX_LOG_BODY_BYTES_DEFAULT]
    rw [truncLen, hlen]
    omega
  · omega

/-- C1 (amended) — Idempotent approval decision.  (a) `_only_pending_for_exec`
returns `False` exactly when some row with the `ExecId` has a status other
than `pending`; in that situation (b) every `reject` call answers 409 and
appends nothing — its conflict check runs before verification — and (c) every
`approve` call that passes token verification answers 409 and appends
nothing.  (An `approve` call that fails verification answers 401, not 409:
see the counterexample.) -/
theorem C1_idempotency_gate (env : GateEnv) (req : GateReq) (rows : List LogRow)
    (schemas : Option (List SchemaEntity)) (workers : List WorkerRow)
    (pick : List WorkerRow → Option WorkerRow) (queueSendOk : Bool)
    (payload : ApprovalPayload)
    (hdecided : onlyPendingForExec rows (pyTrim (pyStr req.routeExecId)) = false) :
    (∀ (rows2 : List LogRow) (eid : String),
      onlyPendingForExec rows2 eid = false ↔
        ∃ e ∈ rows2, pyStr e.execId = eid ∧ trimLower (pyStr e.status) ≠ "pending") ∧
    reject env req rows schemas =
      { status := 409, logWrite := none, dispatchedQueue := none } ∧
    (pyTrim (pyStr req.routeExecId) ≠ "" →
      verifySignedPayload env.secret env.mac env.loads env.parseIso env.now
          (pyTrim (pyStr req.routeExecId)) (pyTrim (pyStr req.p)) (pyTrim (pyStr req.s)) =
        (true, payload) →
      approve env req rows schemas workers pick queueSendOk =
        { status := 409, logWrite := none, dispatchedQueue := none }) := by
  refine ⟨onlyPendingForExec_eq_false_iff, ?_, ?_⟩
  · simp [reject, hdecided]
  · intro hne hver
    simp [approve, hne, hver, hdecided]

/-- C1, witness — a concrete decided history: the reject call and a
token-verified approve call both answer 409 without a log write. -/
theorem C1_idempotency_gate_witness :
    reject
      { secret := "", mac := fun _ _ => "m", loads := fun _ =>
          some { execId := some "e1", exp := some "x" },
        parseIso := fun _ => some 10, now := 0, partitionKey := "p",
        requestedAt := "r", rowKey := "k", approver := "a" }
      { routeExecId := some "e1", p := some "QQ", s := some "m" }
      [{ execId := some "e1", status := some "accepted" }] none =
      { status := 409, logWrite := none, dispatchedQueue := none } ∧
    approve
      { secret := "", mac := fun _ _ => "m", loads := fun _ =>
          some { execId := some "e1", exp := some "x" },
        parseIso := fun _ => some 10, now := 0, partitionKey := "p",
        requestedAt := "r", rowKey := "k", approver := "a" }
      { routeExecId := some "e1", p := some "QQ", s := some "m" }
      [{ execId := some "e1", status := some "accepted" }] none [] (fun _ => none)
      false =
      { status := 409, logWrite := none, dispatchedQueue := none } := by
  have h := C1_idempotency_gate
    { secret := "", mac := fun _ _ => "m", loads := fun _ =>
        some { execId := some "e1", exp := some "x" },
      parseIso := fun _ => some 10, now := 0, partitionKey := "p",
      requestedAt := "r", rowKey := "k", approver := "a" }
    { routeExecId := some "e1", p := some "QQ", s := some "m" }
    [{ execId := some "e1", status := some "accepted" }] none [] (fun _ => none)
    false { execId := some "e1", exp := some "x" } (by rfl)
  exact ⟨h.2.1, h.2.2 (by decide) (by rfl)⟩

/-- C1, counterexample — the claim's "every further approve or reject call
returns 409" fails for `approve`: with a decided history but an unverifiable
token (missing `p`/`s`), `approve` answers 401, not 409. -/
theorem C1_counterexample :
    onlyPendingForExec [{ execId := some "e1", status := some "accepted" }] "e1"
      = false ∧
    (approve
        { secret := "", mac := fun _ _ => "m", loads := fun _ => none,
          parseIso := fun _ => none, now := 0, partitionKey := "p",
          requestedAt := "r", rowKey := "k", approver := "a" }
        { routeExecId := some "e1", p := none, s := none }
        [{ execId := some "e1", status := some "accepted" }]
        none [] (fun _ => none) false).status = 401 := by
  exact ⟨rfl, rfl⟩

/-- C6 (amended) — Check ordering differs between the two handlers.  In
`approve`, verification precedes the conflict check: any call whose token
fails verification is answered 401 with no log write, whatever the execution
history says.  In `reject`, the conflict check precedes verification: a call
for an already-decided `execId` is answered 409 even when the signature is
invalid or absent, so there an unauthenticated caller does learn that the
`execId` was already decided. -/
theorem C6_verification_order (env : GateEnv) (req : GateReq) (rows : List LogRow)
    (schemas : Option (List SchemaEntity)) (workers : List WorkerRow)
    (pick : List WorkerRow → Option WorkerRow) (queueSendOk : Bool) :
    (pyTrim (pyStr req.routeExecId) ≠ "" →
      (verifySignedPayload env.secret env.mac env.loads env.parseIso env.now
          (pyTrim (pyStr req.routeExecId)) (pyTrim (pyStr req.p))
          (pyTrim (pyStr req.s))).1 = false →
      approve env req rows schemas workers pick queueSendOk =
        { status := 401, logWrite := none, dispatchedQueue := none }) ∧
    (onlyPendingForExec rows (pyTrim (pyStr req.routeExecId)) = false →
      reject env req rows schemas =
        { status := 409, logWrite := none, dispatchedQueue := none }) := by
  constructor
  · intro hne hv
    rcases hval : verifySignedPayload env.secret env.mac env.loads env.parseIso
      env.now (pyTrim (pyStr req.routeExecId)) (pyTrim (pyStr req.p))
      (pyTrim (pyStr req.s)) with ⟨b, pl⟩
    rw [hval] at hv
    simp only at hv
    subst hv
    simp [approve, hne, hval]
  · intro hd
    simp [reject, hd]

/-- C6, witness — concrete calls: a failed verification on `approve` gives
401 even over a decided history; a decided history on `reject` gives 409. -/
theorem C6_verification_order_witness :
    approve
      { secret := "", mac := fun _ _ => "m", loads := fun _ => none,
        parseIso := fun _ => none, now := 0, partitionKey := "p",
        requestedAt := "r", rowKey := "k", approver := "a" }
      { routeExecId := some "e1", p := none, s := none }
      [{ execId := some "e1", status := some "accepted" }] none [] (fun _ => none)
      false =
      { status := 401, logWrite := none, dispatchedQueue := none } ∧
    reject
      { secret := "", mac := fun _ _ => "m", loads := fun _ => none,
        parseIso := fun _ => none, now := 0, partitionKey := "p",
        requestedAt := "r", rowKey := "k", approver := "a" }
      { routeExecId := some "e1", p := none, s := none }
      [{ execId := some "e1", status := some "accepted" }] none =
      { status := 409, logWrite := none, dispatchedQueue := none } := by
  have h := C6_verification_order
    { secret := "", mac := fun _ _ => "m", loads := fun _ => none,
      parseIso := fun _ => none, now := 0, partitionKey := "p",
      requestedAt := "r", rowKey := "k", approver := "a" }
    { routeExecId := some "e1", p := none, s := none }
    [{ execId := some "e1", status := some "accepted" }] none [] (fun _ => none)
    false
  exact ⟨h.1 (by decide) rfl, h.2 rfl⟩

/-- C6, counterexample — the claim says a request with an invalid or missing
signature for an already-decided `execId` receives 401 from both handlers;
`reject` instead answers 409 (its conflict check runs first), with the very
same inputs failing verification. -/
theorem C6_counterexample :
    (verifySignedPayload "" (fun _ _ => "m") (fun _ => none) (fun _ => none) 0
        "e1" "" "").1 = false ∧
    (reject
        { secret := "", mac := fun _ _ => "m", loads := fun _ => none,
          parseIso := fun _ => none, now := 0, partitionKey := "p",
          requestedAt := "r", rowKey := "k", approver := "a" }
        { routeExecId := some "e1", p := none, s := none }
        [{ execId := some "e1", status := some "accepted" }] none).status
      = 409 := by
  exact ⟨rfl, rfl⟩

/-- C9 — An empty (or unrelated) history passes the idempotency gate:
`_only_pending_for_exec` is `True` whenever no row carries the `execId`
(vacuously for the empty partition), and an `approve` call with a verified
token then proceeds past the gate into the dispatch phase. -/
theorem C9_empty_history_passes_gate (env : GateEnv) (req : GateReq)
    (rows : List LogRow) (schemas : Option (List SchemaEntity))
    (workers : List WorkerRow) (pick : List WorkerRow → Option WorkerRow)
    (queueSendOk : Bool) (payload : ApprovalPayload)
    (hnomatch : ∀ e ∈ rows, pyStr e.execId ≠ pyTrim (pyStr req.routeExecId))
    (hne : pyTrim (pyStr req.routeExecId) ≠ "")
    (hver : verifySignedPayload env.secret env.mac env.loads env.parseIso env.now
        (pyTrim (pyStr req.routeExecId)) (pyTrim (pyStr req.p))
        (pyTrim (pyStr req.s)) = (true, payload)) :
    onlyPendingForExec rows (pyTrim (pyStr req.routeExecId)) = true ∧
    approve env req rows schemas workers pick queueSendOk =
      approveDispatch env payload (pyTrim (pyStr req.routeExecId)) schemas workers
        pick queueSendOk := by
  have hop : onlyPendingForExec rows (pyTrim (pyStr req.routeExecId)) = true := by
    cases hcase : onlyPendingForExec rows (pyTrim (pyStr req.routeExecId)) with
    | true => rfl
    | false =>
        obtain ⟨e, he, heq, _⟩ :=
          (onlyPendingForExec_eq_false_iff rows (pyTrim (pyStr req.routeExecId))).mp
            hcase
        exact absurd heq (hnomatch e he)
  refine ⟨hop, ?_⟩
  simp [approve, hne, hver, hop]

/-- C9, witness — an empty partition (`rows = []`): the gate passes and the
call lands in the dispatch phase (which here dispatches to worker queue
`"q1"`). -/
theorem C9_empty_history_passes_gate_witness :
    onlyPendingForExec [] "e1" = true ∧
    approve
      { secret := "", mac := fun _ _ => "m", loads := fun _ =>
          some { execId := some "e1", exp := some "x", schemaId := some "s1" },
        parseIso := fun _ => some 10, now := 0, partitionKey := "p",
        requestedAt := "r", rowKey := "k", approver := "a" }
      { routeExecId := some "e1", p := some "QQ", s := some "m" } []
      (some [{ idL := some "s1", worker := some "w1" }])
      [{ partitionKey := some "w1", lastSeen := .seen 0, queue := some "q1" }]
      List.head? true =
      approveDispatch
        { secret := "", mac := fun _ _ => "m", loads := fun _ =>
            some { execId := some "e1", exp := some "x", schemaId := some "s1" },
          parseIso := fun _ => some 10, now := 0, partitionKey := "p",
          requestedAt := "r", rowKey := "k", approver := "a" }
        { execId := some "e1", exp := some "x", schemaId := some "s1" } "e1"
        (some [{ idL := some "s1", worker := some "w1" }])
        [{ partitionKey := some "w1", lastSeen := .seen 0, queue := some "q1" }]
        List.head? true ∧
    (approve
        { secret := "", mac := fun _ _ => "m", loads := fun _ =>
            some { execId := some "e1", exp := some "x", schemaId := some "s1" },
          parseIso := fun _ => some 10, now := 0, partitionKey := "p",
          requestedAt := "r", rowKey := "k", approver := "a" }
        { routeExecId := some "e1", p := some "QQ", s := some "m" } []
        (some [{ idL := some "s1", worker := some "w1" }])
        [{ partitionKey := some "w1", lastSeen := .seen 0, queue := some "q1" }]
        List.head? true).dispatchedQueue = some "q1" := by
  have h := C9_empty_history_passes_gate
    { secret := "", mac := fun _ _ => "m", loads := fun _ =>
        some { execId := some "e1", exp := some "x", schemaId := some "s1" },
      parseIso := fun _ => some 10, now := 0, partitionKey := "p",
      requestedAt := "r", rowKey := "k", approver := "a" }
    { routeExecId := some "e1", p := some "QQ", s := some "m" } []
    (some [{ idL := some "s1", worker := some "w1" }])
    [{ partitionKey := some "w1", lastSeen := .seen 0, queue := some "q1" }]
    List.head? true { execId := some "e1", exp := some "x", schemaId := some "s1" }
    (by intro e he; cases he) (by decide) (by rfl)
  exact ⟨h.1, h.2, by rfl⟩

/-- C4 — Worker selection postcondition.  Whenever `worker_routing` returns a
queue, it is the queue of a registry row whose `PartitionKey` equals the
schema's capability and whose `LastSeen` is within the 3-minute freshness
window of `now` — never a row of another capability, never a staler row (even
one not yet garbage-collected); and when no row satisfies both conditions it
returns `None`.  `pick` is any sound model of `random.choice`. -/
theorem C4_worker_selection (workers : List WorkerRow) (schema : SchemaModel)
    (now : Int) (pick : List WorkerRow → Option WorkerRow)
    (hpick : ∀ l w, pick l = some w → w ∈ l) :
    (∀ q, workerRouting pick workers schema now = some q →
      ∃ w ∈ workers, w.partitionKey = some schema.worker ∧
        ∃ t, w.lastSeen = LastSeenVal.seen t ∧ now - t ≤ 3 * 60 ∧
          w.queue = some q) ∧
    ((∀ w ∈ workers, w.partitionKey = some schema.worker →
        ∀ t, w.lastSeen = LastSeenVal.seen t → ¬(now - t ≤ 3 * 60)) →
      workerRouting pick workers schema now = none) := by
  constructor
  · intro q hq
    unfold workerRouting at hq
    by_cases hv : (getActiveWorkers now 3
        (workers.filter (fun w => w.partitionKey == some schema.worker))).isEmpty
    · simp [hv] at hq
    · simp only [hv, Bool.not_false, if_true] at hq
      rcases Option.bind_eq_some.mp hq with ⟨w, hw1, hw2⟩
      have hmem := hpick _ w hw1
      simp only [getActiveWorkers, List.mem_filter] at hmem
      obtain ⟨⟨hworkers, hpk⟩, hpred⟩ := hmem
      refine ⟨w, hworkers, by simpa using hpk, ?_⟩
      cases hls : w.lastSeen with
      | missing => rw [hls] at hpred; simp at hpred
      | invalid => rw [hls] at hpred; simp at hpred
      | seen t =>
          rw [hls] at hpred
          simp only [decide_eq_true_eq] at hpred
          exact ⟨t, rfl, by simpa using hpred, hw2⟩
  · intro h
    have hnil : getActiveWorkers now 3
        (workers.filter (fun w => w.partitionKey == some schema.worker)) = [] := by
      rw [getActiveWorkers, List.filter_eq_nil_iff]
      intro w hw
      rw [List.mem_filter] at hw
      obtain ⟨hworkers, hpk⟩ := hw
      cases hls : w.lastSeen with
      | missing => simp
      | invalid => simp
      | seen t =>
          have := h w hworkers (by simpa using hpk) t hls
          simp only [decide_eq_true_eq]
          omega
    simp [workerRouting, hnil]

/-- C4, witness — a registry with a fresh matching worker, a stale matching
worker and a fresh worker of another capability: the returned queue belongs
to the fresh matching worker; and with only the stale matching worker in the
registry, nothing is returned. -/
theorem C4_worker_selection_witness :
    (∃ w ∈ [({ partitionKey := some "k8s", lastSeen := .seen 1000,
               queue := some "q1" } : WorkerRow),
            { partitionKey := some "k8s", lastSeen := .seen 0,
              queue := some "q2" },
            { partitionKey := some "vm", lastSeen := .seen 1000,
              queue := some "q3" }],
      w.partitionKey = some "k8s" ∧
        ∃ t, w.lastSeen = LastSeenVal.seen t ∧ 1000 - t ≤ 3 * 60 ∧
          w.queue = some "q1") ∧
    workerRouting List.head?
      [{ partitionKey := some "k8s", lastSeen := .seen 0, queue := some "q2" }]
      { id := "s", name := "", description := none, url := none, runbook := none,
        runArgs := "", worker := "k8s", oncall := "false" } 1000 = none := by
  constructor
  · exact (C4_worker_selection
      [{ partitionKey := some "k8s", lastSeen := .seen 1000, queue := some "q1" },
       { partitionKey := some "k8s", lastSeen := .seen 0, queue := some "q2" },
       { partitionKey := some "vm", lastSeen := .seen 1000, queue := some "q3" }]
      { id := "s", name := "", description := none, url := none, runbook := none,
        runArgs := "", worker := "k8s", oncall := "false" } 1000 List.head?
      (fun l w hw => List.mem_of_mem_head? (Option.mem_def.mpr hw))).1 "q1"
      (by rfl)
  · exact (C4_worker_selection
      [{ partitionKey := some "k8s", lastSeen := .seen 0, queue := some "q2" }]
      { id := "s", name := "", description := none, url := none, runbook := none,
        runArgs := "", worker := "k8s", oncall := "false" } 1000 List.head?
      (fun l w hw => List.mem_of_mem_head? (Option.mem_def.mpr hw))).2
      (by
        intro w hw hpk t hls
        rw [List.mem_singleton] at hw
        subst hw
        injection hls with hte
        omega)

/-- C2 — Signature integrity and hard TTL.  HMAC-SHA256 is modelled as an
abstract MAC; the hypothesis `hInj` is the standard idealisation that the
keyed MAC is collision-free.  Then (i) any signature other than the correct
one for a payload fails verification; (ii) any altered payload verified
against the original's signature fails verification; and (iii) —
unconditionally on the MAC — any token whose `exp` parses to an instant in
the past is rejected, regardless of signature validity: there is no renewal
path, so an expired pending approval can never be approved. -/
theorem C2_signature_integrity_and_ttl (secret : String)
    (mac : String → String → String) (loads : List Nat → Option ApprovalPayload)
    (parseIso : String → Option Int) (now : Int) (execIdPath : String)
    (hInj : ∀ m1 m2, mac (effectiveKey secret) m1 = mac (effectiveKey secret) m2 →
      m1 = m2) :
    (∀ p s2, s2 ≠ signPayloadB64 secret mac p →
      (verifySignedPayload secret mac loads parseIso now execIdPath p s2).1 =
        false) ∧
    (∀ p p2, p2 ≠ p →
      (verifySignedPayload secret mac loads parseIso now execIdPath p2
          (signPayloadB64 secret mac p)).1 = false) ∧
    (∀ p s2 raw pl t, b64urlDecode p = some raw → loads raw = some pl →
      parseIso (cleanExpStr pl) = some t → now > t →
      verifySignedPayload secret mac loads parseIso now execIdPath p s2 =
        (false, {})) := by
  refine ⟨?_, ?_, ?_⟩
  · intro p s2 hne
    by_cases hp : p = "" ∨ s2 = ""
    · simp [verifySignedPayload, hp]
    · have hne2 : signPayloadB64 secret mac p ≠ s2 := fun h => hne h.symm
      simp [verifySignedPayload, hp, hne2]
  · intro p p2 hne
    have hne2 : signPayloadB64 secret mac p2 ≠ signPayloadB64 secret mac p :=
      fun h => hne (hInj _ _ h)
    by_cases hp : p2 = "" ∨ signPayloadB64 secret mac p = ""
    · simp [verifySignedPayload, hp]
    · simp [verifySignedPayload, hp, hne2]
  · intro p s2 raw pl t hdec hload hparse hlt
    by_cases hp : p = "" ∨ s2 = ""
    · simp [verifySignedPayload, hp]
    · by_cases hsig : signPayloadB64 secret mac p ≠ s2
      · simp [verifySignedPayload, hp, hsig]
      · by_cases hid : pyTrim (pyStr pl.execId) ≠ pyTrim execIdPath
        · simp [verifySignedPayload, hp, hsig, hdec, hload, hid]
        · simp [verifySignedPayload, hp, hsig, hdec, hload, hid, hparse, hlt]

/-- C2, witness — a concrete collision-free MAC (identity in the message):
a wrong signature fails, a flipped payload fails against the original
signature, and a token with a past `exp` is rejected. -/
theorem C2_signature_integrity_and_ttl_witness :
    (verifySignedPayload "k" (fun _ m => m)
        (fun _ => some { exp := some "past" }) (fun _ => some 0) 5 "E" "p" "x").1 =
      false ∧
    (verifySignedPayload "k" (fun _ m => m)
        (fun _ => some { exp := some "past" }) (fun _ => some 0) 5 "E" "a"
        (signPayloadB64 "k" (fun _ m => m) "b")).1 = false ∧
    verifySignedPayload "k" (fun _ m => m)
        (fun _ => some { exp := some "past" }) (fun _ => some 0) 5 "E" "QQ" "QQ" =
      (false, {}) := by
  have h := C2_signature_integrity_and_ttl "k" (fun _ m => m)
    (fun _ => some { exp := some "past" }) (fun _ => some 0) 5 "E"
    (fun _ _ hh => hh)
  exact ⟨h.1 "p" "x" (by decide), h.2.1 "b" "a" (by decide),
    h.2.2 "QQ" "QQ" [65] { exp := some "past" } 0 (by rfl) (by rfl) (by rfl)
      (by decide)⟩

/-- C10 — Token sign/verify round trip: for any payload whose serialised
bytes the JSON codec inverts, whose `execId` equals the route value and whose
`exp` parses to a future instant, base64url-encoding the bytes, signing with
`_sign_payload_b64`, and calling `_verify_signed_payload` yields
`(True, payload)`.  (`hmac` records that a real HMAC hex digest is never the
empty string.) -/
theorem C10_token_roundtrip (secret : String) (mac : String → String → String)
    (loads : List Nat → Option ApprovalPayload)
    (dumps : ApprovalPayload → List Nat) (parseIso : String → Option Int)
    (now : Int) (routeExecId : String) (payload : ApprovalPayload)
    (hbytes : ∀ b ∈ dumps payload, b < 256)
    (hnonempty : dumps payload ≠ [])
    (hload : loads (dumps payload) = some payload)
    (hexec : payload.execId = some routeExecId)
    (hmac : signPayloadB64 secret mac (b64urlEncode (dumps payload)) ≠ "")
    (t : Int) (hexp : parseIso (cleanExpStr payload) = some t) (hfut : now < t) :
    verifySignedPayload secret mac loads parseIso now routeExecId
      (b64urlEncode (dumps payload))
      (signPayloadB64 secret mac (b64urlEncode (dumps payload))) =
      (true, payload) := by
  have hp : b64urlEncode (dumps payload) ≠ "" :=
    b64urlEncode_ne_empty _ hnonempty
  have hdec := b64urlDecode_b64urlEncode (dumps payload) hbytes
  have hnotgt : ¬(now > t) := by omega
  simp [verifySignedPayload, hp, hmac, hdec, hload, hexec, hexp, hnotgt, pyStr]

/-- C10, witness — the payload bytes `[123, 125]` (`"{}"`), a concrete codec
and clock: verification of the signed encoding returns `(True, payload)`. -/
theorem C10_token_roundtrip_witness :
    verifySignedPayload "k" (fun k m => k ++ m)
      (fun bs => if bs = [123, 125] then
        some { execId := some "E1", exp := some "2030" } else none)
      (fun s => if s = "2030" then some 100 else none) 50 "E1"
      (b64urlEncode [123, 125])
      (signPayloadB64 "k" (fun k m => k ++ m) (b64urlEncode [123, 125])) =
      (true, { execId := some "E1", exp := some "2030" }) := by
  exact C10_token_roundtrip "k" (fun k m => k ++ m)
    (fun bs => if bs = [123, 125] then
      some { execId := some "E1", exp := some "2030" } else none)
    (fun _ => [123, 125])
    (fun s => if s = "2030" then some 100 else none) 50 "E1"
    { execId := some "E1", exp := some "2030" }
    (by decide) (by decide) (by rfl) rfl (by decide) 100 (by rfl) (by decide)

theorem execStep_foldl_fst (pl : NotifPayload)
    (sendS : Option (String → String → Bool)) (sendO : Option (String → Bool)) :
    ∀ (acts : List RouteAction) (acc : List (RouteAction × Bool) × Bool),
      ((acts.foldl (execStep pl sendS sendO) acc).1).map Prod.fst =
        acc.1.map Prod.fst ++ acts
  | [], acc => by simp
  | a :: rest, acc => by
      have ih := execStep_foldl_fst pl sendS sendO rest (execStep pl sendS sendO acc a)
      rw [List.foldl_cons, ih]
      cases h : attemptAction pl sendS sendO a <;> simp [execStep, h]

theorem evalRules_none (cfg : RoutingConfig) (settings : String → Option String)
    (ctx : NormCtx) :
    ∀ (rules : List Rule),
      (∀ r ∈ rules, matchWhen r.whenCond ctx = false) →
      ∀ (r1 r2 r3 r4 : Option String) (idx : Nat),
        evalRules cfg settings r1 r2 r3 r4 ctx idx rules = none
  | [], _, _, _, _, _, _ => rfl
  | rule :: rest, h, r1, r2, r3, r4, idx => by
      have h0 : matchWhen rule.whenCond ctx = false :=
        h rule (List.mem_cons_self _ _)
      simp only [evalRules, h0, Bool.not_false, if_true]
      exact evalRules_none cfg settings ctx rest
        (fun r hr => h r (List.mem_cons_of_mem _ hr)) r1 r2 r3 r4 (idx + 1)

/-- C5 (amended) — Fallback activation, with the status set the code
actually uses.  With zero matching rules, the decision is the single default
Opsgenie paging action exactly when the normalised status is one of
`error, failed, timeout, routed, scheduled`; for every other status —
including the terminal `succeeded`, `rejected` and `stopped` — the decision
has zero actions and reason `no_action_non_final`. -/
theorem C5_fallback_activation (cfg : RoutingConfig)
    (settings : String → Option String) (raw : RawCtx)
    (hNoMatch : ∀ r ∈ cfg.rules,
      matchWhen r.whenCond (normalizeContext raw) = false) :
    ((["error", "failed", "timeout", "routed", "scheduled"].contains
        (trimLower (pyStr (normalizeContext raw).status))) = true →
      (routeAlert cfg settings raw).reason = "fallback_opsgenie" ∧
      (routeAlert cfg settings raw).actions.length = 1 ∧
      ∀ a ∈ (routeAlert cfg settings raw).actions, a.type = "opsgenie") ∧
    ((["error", "failed", "timeout", "routed", "scheduled"].contains
        (trimLower (pyStr (normalizeContext raw).status))) = false →
      (routeAlert cfg settings raw).reason = "no_action_non_final" ∧
      (routeAlert cfg settings raw).actions = []) := by
  have hnone := evalRules_none cfg settings (normalizeContext raw) cfg.rules hNoMatch
  constructor
  · intro hfin
    simp only [routeAlert, hnone, hfin, if_true]
    refine ⟨by trivial, by trivial, ?_⟩
    intro a ha
    simp only [List.mem_singleton] at ha
    subst ha
    rfl
  · intro hfin
    simp only [routeAlert, hnone, hfin, Bool.false_eq_true, if_false]
    exact ⟨by trivial, by trivial⟩

/-- C5, witness — empty rule set: status `failed` (in the code's fallback
set) yields the single paging action; status `running` yields none. -/
theorem C5_fallback_activation_witness :
    (routeAlert {} (fun _ => none) { status := some "failed" }).reason =
      "fallback_opsgenie" ∧
    (routeAlert {} (fun _ => none) { status := some "failed" }).actions.length
      = 1 ∧
    (routeAlert {} (fun _ => none) { status := some "running" }).reason =
      "no_action_non_final" ∧
    (routeAlert {} (fun _ => none) { status := some "running" }).actions = [] := by
  have h1 := C5_fallback_activation {} (fun _ => none) { status := some "failed" }
    (by intro r hr; cases hr)
  have h2 := C5_fallback_activation {} (fun _ => none) { status := some "running" }
    (by intro r hr; cases hr)
  exact ⟨(h1.1 (by rfl)).1, (h1.1 (by rfl)).2.1, (h2.2 (by rfl)).1,
    (h2.2 (by rfl)).2⟩

/-- C5, counterexample — the claim calls `succeeded` a terminal status and
predicts exactly one default paging action for it with zero matching rules;
the code's fallback set omits `succeeded`, so the decision carries zero
actions. -/
theorem C5_counterexample :
    ({} : RoutingConfig).rules = [] ∧
    (normalizeContext { status := some "succeeded" }).status = some "succeeded" ∧
    (routeAlert {} (fun _ => none) { status := some "succeeded" }).actions = [] ∧
    (routeAlert {} (fun _ => none) { status := some "succeeded" }).reason =
      "no_action_non_final" := by
  exact ⟨rfl, rfl, rfl, rfl⟩

theorem execFallback_attempted (reason : String) (pl : NotifPayload)
    (sendO : Option (String → Bool)) (settings : String → Option String)
    (h2 : reason ≠ "no_action_non_final")
    (h3 : pyTruthy (resolveOpsgenieApikey settings none) = true) :
    (execFallback false reason pl sendO settings).1 = true := by
  simp only [execFallback]
  rw [if_pos ⟨rfl, h2⟩, if_pos h3]
  split <;> rfl

theorem execFallback_skipped (anySucc : Bool) (reason : String)
    (pl : NotifPayload) (sendO : Option (String → Bool))
    (settings : String → Option String)
    (h : anySucc = true ∨ reason = "no_action_non_final" ∨
      pyTruthy (resolveOpsgenieApikey settings none) = false) :
    (execFallback anySucc reason pl sendO settings).1 = false := by
  rcases h with h | h | h
  · subst h; simp [execFallback]
  · simp [execFallback, h]
  · by_cases houter : anySucc = false ∧ ¬reason = "no_action_non_final"
    · simp [execFallback, houter, h]
    · simp [execFallback, houter]

/-- C7 (amended) — Escalation fan-out and no-raise.  `execute_actions`
always returns (`Except.ok`: every raise point of the source sits inside one
of its `try/except` blocks), attempts every decided action in order — an
earlier failure never suppresses a later attempt — and, when zero actions
succeeded and the reason is not the non-final no-action case, reaches the
last-resort default paging call exactly when a default Opsgenie key resolves;
with no key configured the fallback is skipped with a log line, which is
where the claim as stated fails. -/
theorem C7_escalation_fanout (decision : RoutingDecision) (pl : NotifPayload)
    (sendS : Option (String → String → Bool)) (sendO : Option (String → Bool))
    (settings : String → Option String) :
    ∃ tr : ExecTrace,
      executeActions decision pl sendS sendO settings = Except.ok tr ∧
      tr.attempts.map Prod.fst = decision.actions ∧
      (tr.anySuccess = false → decision.reason ≠ "no_action_non_final" →
        pyTruthy (resolveOpsgenieApikey settings none) = true →
        tr.fallbackAttempted = true) ∧
      ((tr.anySuccess = true ∨ decision.reason = "no_action_non_final" ∨
          pyTruthy (resolveOpsgenieApikey settings none) = false) →
        tr.fallbackAttempted = false) := by
  refine ⟨_, rfl, ?_, ?_, ?_⟩
  · simpa [execLoop] using
      execStep_foldl_fst pl sendS sendO decision.actions ([], false)
  · intro h1 h2 h3
    have h1' : (execLoop decision pl sendS sendO).2 = false := h1
    show (execFallback (execLoop decision pl sendS sendO).2 decision.reason pl
        sendO settings).1 = true
    rw [h1']
    exact execFallback_attempted decision.reason pl sendO settings h2 h3
  · intro h
    show (execFallback (execLoop decision pl sendS sendO).2 decision.reason pl
        sendO settings).1 = false
    refine execFallback_skipped _ _ _ _ _ ?_
    rcases h with h | h | h
    · exact Or.inl h
    · exact Or.inr (Or.inl h)
    · exact Or.inr (Or.inr h)

/-- C7, witness — one resolvable Opsgenie action that succeeds: it is the
only attempt and no fallback fires. -/
theorem C7_escalation_fanout_witness :
    ∃ tr : ExecTrace,
      executeActions
        { actions := [{ type := "opsgenie", apiKey := some "K" }],
          matchedRuleIndex := some 0, matchedTeam := none, reason := "matched" }
        { slack := false, opsgenie := true } none (some fun _ => true)
        (fun _ => none) = Except.ok tr ∧
      tr.attempts.map Prod.fst = [{ type := "opsgenie", apiKey := some "K" }] ∧
      tr.fallbackAttempted = false := by
  obtain ⟨tr, h1, h2, _h3, h4⟩ := C7_escalation_fanout
    { actions := [{ type := "opsgenie", apiKey := some "K" }],
      matchedRuleIndex := some 0, matchedTeam := none, reason := "matched" }
    { slack := false, opsgenie := true } none (some fun _ => true) (fun _ => none)
  have hconc : executeActions
      { actions := [{ type := "opsgenie", apiKey := some "K" }],
        matchedRuleIndex := some 0, matchedTeam := none, reason := "matched" }
      { slack := false, opsgenie := true } none (some fun _ => true)
      (fun _ => none) =
      Except.ok { attempts := [({ type := "opsgenie", apiKey := some "K" }, true)],
                  anySuccess := true, fallbackAttempted := false,
                  fallbackSendOk := false } := by rfl
  have htr := Except.ok.inj (h1.symm.trans hconc)
  exact ⟨tr, h1, h2, h4 (Or.inl (by rw [htr]))⟩

/-- C7, counterexample — a matched decision whose only action fails (no
Slack token) and an environment with no default Opsgenie key: zero actions
succeeded, the reason is not the non-final no-action case, and yet no
last-resort paging call is attempted — the fallback is skipped. -/
theorem C7_counterexample :
    executeActions
      { actions := [{ type := "slack" }], matchedRuleIndex := some 0,
        matchedTeam := none, reason := "matched" }
      {} none none (fun _ => none) =
      Except.ok { attempts := [({ type := "slack" }, false)], anySuccess := false,
                  fallbackAttempted := false, fallbackSendOk := false } ∧
    "matched" ≠ "no_action_non_final" := by
  exact ⟨rfl, by decide⟩
